import Mathlib

/-!
# Verification of the `genvp.py` Vulkan profile-library generator

A shallow embedding of the registry loader, profile loader/resolver and the
code emitter of `library/scripts/genvp.py`, together with proofs settling the
frozen claims about the program.

Python dictionaries are modelled as association lists in insertion order
(assignment to an existing key keeps its position, a new key is appended at
the end, exactly as CPython dictionaries behave).  Fatal `Log.f` calls raise
`Exception`, modelled as `PyErr.fatal`; uncontrolled Python failures
(`TypeError`, `AttributeError`, `KeyError`, `IndexError`) are modelled by the
corresponding `PyErr` constructors, so that the *kind* of failure remains
observable.
-/

set_option autoImplicit false

namespace Genvp

/-- Insertion-ordered dictionary (a Python `dict`). -/
abbrev Dict (α : Type) := List (String × α)

/-- `d[k]` lookup: first binding of `k`, as Python `dict.get`. -/
def dget {α : Type} : Dict α → String → Option α
  | [], _ => none
  | (k', v) :: t, k => if k' = k then some v else dget t k

/-- `d[k] = v` assignment: replace an existing binding in place, otherwise
append at the end (CPython insertion-order semantics). -/
def dset {α : Type} : Dict α → String → α → Dict α
  | [], k, v => [(k, v)]
  | (k', v') :: t, k, v => if k' = k then (k, v) :: t else (k', v') :: dset t k v

/-- `k in d` membership test. -/
def dmem {α : Type} (d : Dict α) (k : String) : Bool :=
  (dget d k).isSome

/-- `list(d)` / iteration order of the keys. -/
def dkeys {α : Type} (d : Dict α) : List String := d.map Prod.fst

@[simp] theorem dget_nil {α : Type} (k : String) : dget ([] : Dict α) k = none := rfl

@[simp] theorem dget_cons {α : Type} (k' k : String) (v : α) (t : Dict α) :
    dget ((k', v) :: t) k = if k' = k then some v else dget t k := rfl

@[simp] theorem dset_nil {α : Type} (k : String) (v : α) :
    dset ([] : Dict α) k v = [(k, v)] := rfl

@[simp] theorem dset_cons {α : Type} (k' k : String) (v' v : α) (t : Dict α) :
    dset ((k', v') :: t) k v
      = if k' = k then (k, v) :: t else (k', v') :: dset t k v := rfl

theorem dget_dset {α : Type} (d : Dict α) (k k' : String) (v : α) :
    dget (dset d k v) k' = if k = k' then some v else dget d k' := by
  induction d with
  | nil => simp [dget, dset]
  | cons hd t ih =>
    obtain ⟨k₀, v₀⟩ := hd
    simp only [dset]
    by_cases h0 : k₀ = k
    · subst h0
      by_cases h1 : k₀ = k' <;> simp [dget, h1]
    · by_cases h1 : k₀ = k'
      · have h2 : ¬ k = k' := fun h => h0 (h1.trans h.symm)
        have h3 : ¬ k' = k := fun h => h2 h.symm
        simp [dget, h1, h2, h3]
      · simp [dget, h0, h1, ih]

theorem dmem_dset {α : Type} (d : Dict α) (k k' : String) (v : α) :
    dmem (dset d k v) k' = if k = k' then true else dmem d k' := by
  by_cases h : k = k' <;> simp [dmem, dget_dset, h]

theorem dkeys_dset_of_mem {α : Type} (d : Dict α) (k : String) (v : α)
    (h : dmem d k = true) : dkeys (dset d k v) = dkeys d := by
  induction d with
  | nil => simp [dmem, dget] at h
  | cons hd t ih =>
    obtain ⟨k₀, v₀⟩ := hd
    by_cases h0 : k₀ = k
    · subst h0; simp [dset, dkeys]
    · simp [dmem, dget, h0] at h
      simp [dset, dkeys, h0, ih h]
      exact ih h

/-! ### Python string primitives

Lean's byte-iterator based `String` functions (`replace`, `toUpper`,
`startsWith`, `endsWith`, `splitOn`, the order) do not reduce inside the
kernel, so the string operations the generator uses are modelled directly on
the character lists, with Python's semantics. -/

/-- Does `l` start with `pat`? -/
def leadsWith : List Char → List Char → Bool
  | [], _ => true
  | _ :: _, [] => false
  | p :: ps, c :: cs => p = c && leadsWith ps cs

/-- Python `s.startswith(pat)`. -/
def pyStartsWith (s pat : String) : Bool :=
  leadsWith pat.data s.data

/-- Python `s.endswith(pat)`. -/
def pyEndsWith (s pat : String) : Bool :=
  leadsWith pat.data.reverse s.data.reverse

/-- Python `s[:-n]` (for `n = 0` this is the empty string, as in Python). -/
def pyDropRight (s : String) (n : Nat) : String :=
  if n = 0 then "" else String.mk (s.data.take (s.data.length - n))

/-- Python `<` on strings: lexicographic by code point. -/
def pyStrLtL : List Char → List Char → Bool
  | [], [] => false
  | [], _ :: _ => true
  | _ :: _, [] => false
  | a :: as, b :: bs => if a < b then true else if b < a then false else pyStrLtL as bs

/-- Python `a <= b` on strings (`¬ b < a` for the total order). -/
def pyStrLe (a b : String) : Bool :=
  !(pyStrLtL b.data a.data)

/-- Python `s.split(sep)` for a one-character separator. -/
def pySplitChar (sep : Char) (s : String) : List String :=
  go s.data []
where
  go : List Char → List Char → List String
    | [], acc => [String.mk acc.reverse]
    | c :: cs, acc =>
      if c = sep then String.mk acc.reverse :: go cs [] else go cs (c :: acc)

/-- List form of Python `str.replace` for a one-character pattern (the only
shape the generator uses: `apiVersion.replace(".", ", ")`): scan left to
right, replacing every occurrence. -/
def replaceCharL (pat : Char) (rep : List Char) : List Char → List Char
  | [] => []
  | c :: cs =>
    if c = pat then rep ++ replaceCharL pat rep cs
    else c :: replaceCharL pat rep cs

/-- Python `s.replace(pat, rep)` for a one-character `pat`. -/
def pyReplaceChar (s : String) (pat : Char) (rep : String) : String :=
  String.mk (replaceCharL pat rep.data s.data)

/-- Python `s.upper()` (the generator only upper-cases ASCII macro names). -/
def pyUpper (s : String) : String :=
  String.mk (s.data.map Char.toUpper)

/-- Python error/exception discipline of the generator. -/
inductive PyErr where
  /-- `Log.f`: prints `FATAL: msg` and raises `Exception(msg)`. -/
  | fatal (msg : String)
  /-- A Python `TypeError` (e.g. calling a function with the wrong arity). -/
  | typeError (msg : String)
  /-- A Python `AttributeError` (e.g. `.extend` on a non-list). -/
  | attributeError (msg : String)
  /-- A Python `KeyError` (missing dictionary key on direct subscript). -/
  | keyError (msg : String)
  /-- A Python `IndexError` (list index out of range). -/
  | indexError (msg : String)
deriving DecidableEq, Repr

/-- A JSON-like Python value occurring in profile files: booleans, integers,
strings, lists and (ordered) dictionaries. -/
inductive Value where
  | vBool (b : Bool)
  | vInt (n : Int)
  | vStr (s : String)
  | vList (xs : List Value)
  | vDict (d : List (String × Value))

/-- The Python runtime type of a value, as `type(x)` distinguishes them. -/
inductive PyTy where
  | tBool | tInt | tStr | tList | tDict
deriving DecidableEq, Repr

/-- `type(v)`. -/
def Value.ty : Value → PyTy
  | .vBool _ => .tBool
  | .vInt _ => .tInt
  | .vStr _ => .tStr
  | .vList _ => .tList
  | .vDict _ => .tDict

/-! ## Registry model (`VulkanRegistry` and friends) -/

/-- `VulkanPlatform.__init__`. -/
structure VulkanPlatform where
  name : Option String
  protect : Option String
deriving DecidableEq, Repr

/-- `VulkanStructMember.__init__`. -/
structure VulkanStructMember where
  name : String
  type : String
  limittype : Option String
  isArray : Bool := false
deriving DecidableEq, Repr

/-- `VulkanStruct.__init__` plus the fields filled in by the parsing passes.
`extends_` models the Python attribute `extends` (a Lean keyword). -/
structure VulkanStruct where
  name : String
  sType : Option String := none
  extends_ : List String := []
  members : Dict VulkanStructMember := []
  aliases : List String
  definedByVersion : Option String := none
  definedByExtensions : List String := []
deriving DecidableEq, Repr

/-- `VulkanVersion`: a top-level feature whose number matched the version
regex, with its structure-type alias table. -/
structure VulkanVersion where
  name : String
  number : String
  sTypeAliases : Dict String := []
deriving DecidableEq, Repr

/-- `VulkanExtension`. -/
structure VulkanExtension where
  name : String
  upperCaseName : String
  type : Option String
  platform : Option String
  sTypeAliases : Dict String := []
deriving DecidableEq, Repr

/-- The loaded registry (`VulkanRegistry.__init__` result). -/
structure VulkanRegistry where
  platforms : Dict VulkanPlatform
  versions : Dict VulkanVersion
  extensions : Dict VulkanExtension
  structs : Dict VulkanStruct
deriving DecidableEq, Repr

/-! ## Parsed-markup input model

The XML parsing itself (`xml.etree.ElementTree`) is an external library; the
loader consumes the node structure below, which carries exactly the
attributes and children `genvp.py` reads from the document. -/

/-- A `require/enum` child of a feature or extension node. -/
structure XmlEnum where
  name : String
  value : Option String := none
  /-- the `alias` attribute (`alias` is a Lean keyword) -/
  aliasAttr : Option String := none
deriving DecidableEq, Repr

/-- A `platforms/platform` node. -/
structure XmlPlatform where
  name : String
  protect : Option String := none
deriving DecidableEq, Repr

/-- A top-level `feature` node. -/
structure XmlFeature where
  name : String
  number : String
  enums : List XmlEnum := []
  requireTypes : List String := []
deriving DecidableEq, Repr

/-- An `extensions/extension` node. -/
structure XmlExtension where
  name : String
  supported : String
  type : Option String := none
  platform : Option String := none
  enums : List XmlEnum := []
  requireTypes : List String := []
deriving DecidableEq, Repr

/-- A `member` child of a struct type node: name text, tail text after the
name, type text, and the optional `limittype`/`values` attributes. -/
structure XmlMember where
  name : String
  tail : Option String := none
  type : String
  limittype : Option String := none
  values : Option String := none
deriving DecidableEq, Repr

/-- A `types/type[@category='struct']` node. -/
structure XmlStructType where
  name : String
  /-- the `alias` attribute (`alias` is a Lean keyword) -/
  aliasAttr : Option String := none
  structextends : Option String := none
  members : List XmlMember := []
deriving DecidableEq, Repr

/-- The whole registry document, as the loader reads it. -/
structure XmlRegistry where
  platforms : List XmlPlatform := []
  features : List XmlFeature := []
  extensions : List XmlExtension := []
  structTypes : List XmlStructType := []
deriving DecidableEq, Repr

/-! ## Registry loader -/

/-- `VulkanRegistry.parsePlatformInfo`. -/
def parsePlatformInfo (platforms : List XmlPlatform) : Dict VulkanPlatform :=
  platforms.foldl
    (fun acc p => dset acc p.name { name := some p.name, protect := p.protect }) []

/-- `VulkanDefinitionScope.parseAliases`: record `alias -> name` for every
`require/enum[@alias]` whose name begins with `VK_STRUCTURE_TYPE_`. -/
def parseScopeAliases (enums : List XmlEnum) : Dict String :=
  enums.foldl
    (fun acc e =>
      match e.aliasAttr with
      | some a =>
        if pyStartsWith e.name "VK_STRUCTURE_TYPE_" then dset acc a e.name else acc
      | none => acc) []

/-- Full match of the version regex `^[1-9][0-9]*\.[0-9]+$`.  The regex is
deterministic: the greedy digit runs cannot backtrack usefully because both
`\.` and `$` fail on a digit. -/
def isVersionNumber (s : String) : Bool :=
  match s.data with
  | [] => false
  | c :: rest =>
    ('1' ≤ c && c ≤ '9') &&
    (match rest.dropWhile Char.isDigit with
     | '.' :: fs => !fs.isEmpty && fs.all Char.isDigit
     | _ => false)

/-- `VulkanRegistry.parseVersionInfo`.  On a non-matching number the source
executes `Log.f("Unsupported feature with number '{0}'", feature.get('number'))`,
calling the one-parameter `Log.f` with two arguments, which raises a Python
`TypeError` before any message is produced. -/
def parseVersionInfo (features : List XmlFeature) :
    Except PyErr (Dict VulkanVersion) :=
  features.foldlM
    (fun acc f =>
      if isVersionNumber f.number then
        .ok (dset acc f.number
          { name := f.name, number := f.number
            sTypeAliases := parseScopeAliases f.enums })
      else
        .error (.typeError "f() takes 1 positional argument but 2 were given"))
    []

/-- `VulkanRegistry.parseExtensionInfo`: for every extension supported by
`vulkan`, locate the first `require/enum` whose value is the quoted extension
name and whose name ends with `_EXTENSION_NAME`. -/
def parseExtensionInfo (extensions : List XmlExtension) :
    Except PyErr (Dict VulkanExtension) :=
  extensions.foldlM
    (fun acc ext =>
      if ext.supported = "vulkan" then
        let enumMatches := ext.enums.filter
          (fun e => e.value = some ("\"" ++ ext.name ++ "\""))
        match enumMatches.find? (fun e => pyEndsWith e.name "_EXTENSION_NAME") with
        | some e =>
          .ok (dset acc ext.name
            { name := ext.name
              upperCaseName := pyDropRight e.name "_EXTENSION_NAME".length
              type := ext.type, platform := ext.platform
              sTypeAliases := parseScopeAliases ext.enums })
        | none =>
          .error (.fatal ("Cannot find name enum for extension '" ++ ext.name ++ "'"))
      else .ok acc)
    []

/-- The member-parsing loop of `parseStructInfo` for one struct node:
skip `sType` and `pNext`; a member is an array iff the tail text after its
name begins with `[` (subscripting an empty tail raises `IndexError`). -/
def parseStructMembers (members : List XmlMember) :
    Except PyErr (Dict VulkanStructMember) :=
  members.foldlM
    (fun acc m =>
      if m.name ≠ "sType" ∧ m.name ≠ "pNext" then
        match m.tail with
        | none =>
          .ok (dset acc m.name
            { name := m.name, type := m.type, limittype := m.limittype })
        | some t =>
          match t.data with
          | [] => .error (.indexError "string index out of range")
          | c :: _ =>
            .ok (dset acc m.name
              { name := m.name, type := m.type, limittype := m.limittype
                isArray := c = '[' })
      else .ok acc)
    []

/-- `VulkanRegistry.parseStructInfo`. -/
def parseStructInfo (structTypes : List XmlStructType) :
    Except PyErr (Dict VulkanStruct) :=
  structTypes.foldlM
    (fun acc st => do
      let members ← parseStructMembers st.members
      .ok (dset acc st.name
        { name := st.name
          sType := (st.members.find? (fun m => m.name = "sType")).bind (·.values)
          extends_ := match st.structextends with
            | some e => pySplitChar ',' e
            | none => []
          members := members
          aliases := [st.name] }))
    []

/-- `VulkanRegistry.parsePrerequisites`: stamp `definedByVersion` (plain
assignment, so a later feature overwrites an earlier one) and append to
`definedByExtensions` for every `require/type` naming a known struct. -/
def parsePrerequisites (xml : XmlRegistry) (structs : Dict VulkanStruct) :
    Dict VulkanStruct :=
  let s1 := xml.features.foldl
    (fun acc f =>
      f.requireTypes.foldl
        (fun acc rt =>
          match dget acc rt with
          | some st => dset acc rt { st with definedByVersion := some f.number }
          | none => acc) acc) structs
  xml.extensions.foldl
    (fun acc ext =>
      ext.requireTypes.foldl
        (fun acc rt =>
          match dget acc rt with
          | some st =>
            dset acc rt
              { st with definedByExtensions := st.definedByExtensions ++ [ext.name] }
          | none => acc) acc) s1

/-- The sType-alias search of `VulkanRegistry.parseAliases`: first scan the
version alias tables (in insertion order, for versions whose key compares
`<=` the alias struct's origin version as Python strings), then the alias
struct's origin extensions (subscripting a missing extension raises
`KeyError`). -/
def findSTypeAlias (versions : Dict VulkanVersion)
    (extensions : Dict VulkanExtension) (aliasDef : VulkanStruct)
    (baseSType : String) : Except PyErr (Option String) := do
  let fromVersions : Option String :=
    match aliasDef.definedByVersion with
    | some dv =>
      (versions.filterMap
        (fun (num, ver) =>
          if pyStrLe num dv then dget ver.sTypeAliases baseSType else none)).head?
    | none => none
  match fromVersions with
  | some t => .ok (some t)
  | none =>
    aliasDef.definedByExtensions.foldlM
      (fun found extName =>
        match found with
        | some t => .ok (some t)
        | none =>
          match dget extensions extName with
          | some ext => .ok (dget ext.sTypeAliases baseSType)
          | none => .error (.keyError extName))
      none

/-- The aliases lists of a struct and of its aliases are one shared Python
list object; appending through one struct is visible through all of them.  We
model the shared append by rewriting the `aliases` field of every struct
named in the base's current aliases list, which coincides with the
object-sharing semantics whenever every alias declaration follows the
declaration of its base (the layout of the registry document). -/
def groupSetAliases (structs : Dict VulkanStruct) (group : List String)
    (newAliases : List String) : Dict VulkanStruct :=
  structs.map (fun p =>
    if p.1 ∈ group then (p.1, { p.2 with aliases := newAliases }) else p)

/-- One iteration of the `VulkanRegistry.parseAliases` loop, for a struct
node carrying an `alias` attribute. -/
def parseAliasStep (versions : Dict VulkanVersion)
    (extensions : Dict VulkanExtension) (structs : Dict VulkanStruct)
    (structName aliasTarget : String) : Except PyErr (Dict VulkanStruct) :=
  match dget structs aliasTarget with
  | none =>
    .error (.fatal ("Failed to find alias '" ++ aliasTarget ++ "' of struct '"
      ++ structName ++ "'"))
  | some baseStructDef =>
    match dget structs structName with
    | none => .error (.keyError structName)
    | some aliasStructDef => do
      let newAliases := baseStructDef.aliases ++ [structName]
      let structs1 := groupSetAliases structs baseStructDef.aliases newAliases
      let newSType ←
        match baseStructDef.sType with
        | none => pure aliasStructDef.sType
        | some s => do
          match ← findSTypeAlias versions extensions aliasStructDef s with
          | some t => pure (some t)
          | none =>
            .error (.fatal ("Could not find sType enum of alias '" ++ aliasTarget
              ++ "' of struct '" ++ structName ++ "'"))
      .ok (dset structs1 structName
        { aliasStructDef with
            extends_ := baseStructDef.extends_
            members := baseStructDef.members
            aliases := newAliases
            sType := newSType })

/-- `VulkanRegistry.parseAliases` (the registry-level pass). -/
def parseAliasesReg (versions : Dict VulkanVersion)
    (extensions : Dict VulkanExtension) (structTypes : List XmlStructType)
    (structs : Dict VulkanStruct) : Except PyErr (Dict VulkanStruct) :=
  structTypes.foldlM
    (fun acc st =>
      match st.aliasAttr with
      | some a => parseAliasStep versions extensions acc st.name a
      | none => .ok acc)
    structs

/-- The hard-coded `(structName, memberName) -> limittype` correction table
of `VulkanRegistry.applyWorkarounds`, in source order. -/
def workaroundTable : List (String × String × String) :=
  [ ("VkPhysicalDeviceLimits", "bufferImageGranularity", "min"),
    ("VkPhysicalDeviceLimits", "subPixelPrecisionBits", "max"),
    ("VkPhysicalDeviceLimits", "subTexelPrecisionBits", "max"),
    ("VkPhysicalDeviceLimits", "mipmapPrecisionBits", "max"),
    ("VkPhysicalDeviceLimits", "viewportSubPixelBits", "max"),
    ("VkPhysicalDeviceLimits", "minMemoryMapAlignment", "max"),
    ("VkPhysicalDeviceLimits", "minTexelBufferOffsetAlignment", "min"),
    ("VkPhysicalDeviceLimits", "minUniformBufferOffsetAlignment", "min"),
    ("VkPhysicalDeviceLimits", "minStorageBufferOffsetAlignment", "min"),
    ("VkPhysicalDeviceLimits", "subPixelInterpolationOffsetBits", "max"),
    ("VkPhysicalDeviceLimits", "timestampPeriod", "IGNORE"),
    ("VkPhysicalDeviceLimits", "nonCoherentAtomSize", "min"),
    ("VkPhysicalDeviceLimits", "maxColorAttachments", "max"),
    ("VkPhysicalDeviceLimits", "pointSizeGranularity", "min"),
    ("VkPhysicalDeviceLimits", "lineWidthGranularity", "min"),
    ("VkPhysicalDeviceVulkan11Properties", "subgroupSize", "IGNORE"),
    ("VkPhysicalDevicePortabilitySubsetPropertiesKHR",
      "minVertexInputBindingStrideAlignment", "min") ]

/-- `self.structs[sn].members[mn].limittype = lt`: subscripting a missing
struct or member raises `KeyError`. -/
def setMemberLimittype (structs : Dict VulkanStruct) (sn mn lt : String) :
    Except PyErr (Dict VulkanStruct) :=
  match dget structs sn with
  | none => .error (.keyError sn)
  | some st =>
    match dget st.members mn with
    | none => .error (.keyError mn)
    | some m =>
      .ok (dset structs sn
        { st with members := dset st.members mn { m with limittype := some lt } })

/-- The first (table-driven) pass of `applyWorkarounds`. -/
def applyLimittypeTable :
    List (String × String × String) → Dict VulkanStruct →
      Except PyErr (Dict VulkanStruct)
  | [], s => .ok s
  | (sn, mn, lt) :: rest, s => do
    applyLimittypeTable rest (← setMemberLimittype s sn mn lt)

/-- The second pass of `applyWorkarounds`: every member with
`limittype == 'bitmask'` but type `VkBool32` is rewritten to `noauto`. -/
def boolBitmaskFix (structs : Dict VulkanStruct) : Dict VulkanStruct :=
  structs.map (fun p =>
    (p.1, { p.2 with members := p.2.members.map (fun q =>
      (q.1,
        if q.2.limittype = some "bitmask" ∧ q.2.type = "VkBool32" then
          { q.2 with limittype := some "noauto" }
        else q.2)) }))

/-- `VulkanRegistry.applyWorkarounds`. -/
def applyWorkarounds (structs : Dict VulkanStruct) :
    Except PyErr (Dict VulkanStruct) := do
  .ok (boolBitmaskFix (← applyLimittypeTable workaroundTable structs))

/-- `VulkanRegistry.__init__`: the full registry-loading pipeline (after the
external XML parse). -/
def loadRegistry (xml : XmlRegistry) : Except PyErr VulkanRegistry := do
  let platforms := parsePlatformInfo xml.platforms
  let versions ← parseVersionInfo xml.features
  let extensions ← parseExtensionInfo xml.extensions
  let structs0 ← parseStructInfo xml.structTypes
  let structs1 := parsePrerequisites xml structs0
  let structs2 ← parseAliasesReg versions extensions xml.structTypes structs1
  let structs3 ← applyWorkarounds structs2
  .ok { platforms, versions, extensions, structs := structs3 }

/-! ## Profile model and resolver -/

/-- A capability fragment as read from a profile file (`caps[capName]`):
the optional top-level keys the merge functions look at via `data.get`. -/
structure Fragment where
  extensions : Option (Dict Int) := none
  features : Option (Dict Value) := none
  properties : Option (Dict Value) := none
  formats : Option (Dict Value) := none
  queueFamiliesProperties : Option (List (Dict Value)) := none
  memoryProperties : Option (Dict Value) := none

/-- `VulkanProfileCapabilities` state. -/
structure VulkanProfileCapabilities where
  extensions : Dict Int := []
  instanceExtensions : Dict Int := []
  deviceExtensions : Dict Int := []
  features : Dict Value := []
  properties : Dict Value := []
  formats : Dict Value := []
  queueFamiliesProperties : List (Dict Value) := []
  memoryProperties : Dict Value := []

mutual
/-- `VulkanProfileCapabilities.mergeProfileCapData`: the top-level type check
(`ConflictError` on mismatch), then recursion over dictionary items; any
other matching pair of types is the `Unexpected data type` fatal error. -/
def mergeProfileCapData (dst src : Value) : Except PyErr Value :=
  if src.ty ≠ dst.ty then
    .error (.fatal "Data type confict during profile capability data merge")
  else
    match dst, src with
    | .vDict dstd, .vDict srcd => do .ok (.vDict (← mergeItems dstd srcd))
    | _, _ =>
      .error (.fatal "Unexpected data type during profile capability data merge")
  termination_by (sizeOf src, 0)
  decreasing_by all_goals (simp_wf; omega)

/-- The body of the `for key, val in src.items()` loop of
`mergeProfileCapData`: objects recurse (creating an empty dict first when the
key is absent), arrays are extended onto `dst[key]` (an empty list is created
first when absent; `.extend` on an existing non-list raises
`AttributeError`), scalars and booleans overwrite after a type check. -/
def mergeEntry (dstd : List (String × Value)) (key : String) (val : Value) :
    Except PyErr (List (String × Value)) :=
  match val with
  | .vDict vd =>
    let cur := match dget dstd key with
      | none => Value.vDict []
      | some c => c
    do .ok (dset dstd key (← mergeProfileCapData cur (.vDict vd)))
  | .vList xs =>
    (match dget dstd key with
     | none => .ok (dset dstd key (.vList xs))
     | some (.vList old) => .ok (dset dstd key (.vList (old ++ xs)))
     | some _ => .error (.attributeError "object has no attribute 'extend'"))
  | _ =>
    match dget dstd key with
    | some old =>
      if old.ty ≠ val.ty then
        .error (.fatal "Data type confict during profile capability data merge")
      else .ok (dset dstd key val)
    | none => .ok (dset dstd key val)
  termination_by (sizeOf val, 1)
  decreasing_by all_goals (simp_wf; omega)

/-- The `for key, val in src.items()` loop of `mergeProfileCapData`. -/
def mergeItems (dstd : List (String × Value)) :
    List (String × Value) → Except PyErr (List (String × Value))
  | [] => .ok dstd
  | (key, val) :: rest => do mergeItems (← mergeEntry dstd key val) rest
  termination_by srcd => (sizeOf srcd, 2)
  decreasing_by all_goals (simp_wf; omega)
end

/-- The body of the `for extName, specVer in data['extensions'].items()`
loop of `mergeProfileExtensions`: record the extension and classify it into
the per-kind map given by the registry; unknown extensions and extensions of
invalid kind are fatal. -/
def mergeExtStep (registry : VulkanRegistry)
    (caps : VulkanProfileCapabilities) (p : String × Int) :
    Except PyErr VulkanProfileCapabilities :=
  match dget registry.extensions p.1 with
  | some extInfo =>
    let caps := { caps with extensions := dset caps.extensions p.1 p.2 }
    if extInfo.type = some "instance" then
      .ok { caps with instanceExtensions := dset caps.instanceExtensions p.1 p.2 }
    else if extInfo.type = some "device" then
      .ok { caps with deviceExtensions := dset caps.deviceExtensions p.1 p.2 }
    else
      .error (.fatal ("Extension '" ++ p.1 ++ "' has invalid type"))
  | none =>
    .error (.fatal ("Extension '" ++ p.1 ++ "' does not exist"))

/-- `VulkanProfileCapabilities.mergeProfileExtensions`. -/
def mergeProfileExtensions (registry : VulkanRegistry)
    (caps : VulkanProfileCapabilities) (data : Fragment) :
    Except PyErr VulkanProfileCapabilities :=
  match data.extensions with
  | none => .ok caps
  | some exts => exts.foldlM (mergeExtStep registry) caps

/-- `mergeProfileFeatures`. -/
def mergeProfileFeatures (caps : VulkanProfileCapabilities) (data : Fragment) :
    Except PyErr VulkanProfileCapabilities :=
  match data.features with
  | none => .ok caps
  | some f => do .ok { caps with features := ← mergeItems caps.features f }

/-- `mergeProfileProperties`. -/
def mergeProfileProperties (caps : VulkanProfileCapabilities) (data : Fragment) :
    Except PyErr VulkanProfileCapabilities :=
  match data.properties with
  | none => .ok caps
  | some f => do .ok { caps with properties := ← mergeItems caps.properties f }

/-- `mergeProfileFormats`. -/
def mergeProfileFormats (caps : VulkanProfileCapabilities) (data : Fragment) :
    Except PyErr VulkanProfileCapabilities :=
  match data.formats with
  | none => .ok caps
  | some f => do .ok { caps with formats := ← mergeItems caps.formats f }

/-- `mergeProfileQueueFamiliesProperties`: plain list concatenation. -/
def mergeProfileQueueFamiliesProperties (caps : VulkanProfileCapabilities)
    (data : Fragment) : VulkanProfileCapabilities :=
  match data.queueFamiliesProperties with
  | none => caps
  | some qs => { caps with queueFamiliesProperties := caps.queueFamiliesProperties ++ qs }

/-- `mergeProfileMemoryProperties`. -/
def mergeProfileMemoryProperties (caps : VulkanProfileCapabilities)
    (data : Fragment) : Except PyErr VulkanProfileCapabilities :=
  match data.memoryProperties with
  | none => .ok caps
  | some f => do .ok { caps with memoryProperties := ← mergeItems caps.memoryProperties f }

/-- `VulkanProfileCapabilities.mergeCaps`. -/
def mergeCaps (registry : VulkanRegistry) (caps : VulkanProfileCapabilities)
    (frag : Fragment) : Except PyErr VulkanProfileCapabilities := do
  let caps ← mergeProfileExtensions registry caps frag
  let caps ← mergeProfileFeatures caps frag
  let caps ← mergeProfileProperties caps frag
  let caps ← mergeProfileFormats caps frag
  let caps := mergeProfileQueueFamiliesProperties caps frag
  mergeProfileMemoryProperties caps frag

/-- `VulkanProfileCapabilities.__init__`: merge the named fragments in
order.  On a missing fragment the error message formats `data['name']`,
a key the profile object does not have, so the path raises `KeyError`
before `Log.f` runs. -/
def mkVulkanProfileCapabilities (registry : VulkanRegistry)
    (capNames : List String) (capsPool : Dict Fragment) :
    Except PyErr VulkanProfileCapabilities :=
  capNames.foldlM
    (fun caps capName =>
      match dget capsPool capName with
      | some frag => mergeCaps registry caps frag
      | none => .error (.keyError "name"))
    {}

/-- A profile entry of a profile file (`profiles[name]` JSON object). -/
structure ProfileData where
  version : Int
  apiVersion : String
  fallback : Option (List String) := none
  capabilities : List String

/-- A resolved `VulkanProfile`. -/
structure VulkanProfile where
  name : String
  version : Int
  apiVersion : String
  fallback : Option (List String)
  requirements : List String
  capabilities : VulkanProfileCapabilities

/-- `re.search(r"^([1-9][0-9]*\.[0-9]+)[^0-9].*$", s)`, returning capture
group 1.  The regex is deterministic: both greedy digit runs cannot give
back characters usefully, because `\.` and `[^0-9]` fail on a digit. -/
def apiVersionSearch (s : String) : Option String :=
  match s.data with
  | [] => none
  | c :: rest =>
    if '1' ≤ c ∧ c ≤ '9' then
      let intDigits := rest.takeWhile Char.isDigit
      match rest.dropWhile Char.isDigit with
      | '.' :: rest2 =>
        let fracDigits := rest2.takeWhile Char.isDigit
        if fracDigits.isEmpty then none
        else
          match rest2.dropWhile Char.isDigit with
          | [] => none
          | _ :: _ => some (String.mk (c :: intDigits ++ '.' :: fracDigits))
      | _ => none
    else none

/-- `VulkanProfile.collectCompileTimeRequirements`: the guard symbol of the
version whose number is the major.minor prefix of `api-version`, then every
required extension's name. -/
def collectCompileTimeRequirements (registry : VulkanRegistry)
    (name apiVersion : String) (extensions : Dict Int) :
    Except PyErr (List String) :=
  match apiVersionSearch apiVersion with
  | some versionNumber =>
    (match dget registry.versions versionNumber with
     | some ver =>
       extensions.foldlM
         (fun reqs p =>
           if dmem registry.extensions p.1 then .ok (reqs ++ [p.1])
           else
             .error (.fatal ("Extension '" ++ p.1 ++ "' required by profile '"
               ++ name ++ "' does not exist")))
         [ver.name]
     | none =>
       .error (.fatal ("No version '" ++ versionNumber
         ++ "' found in registry required by profile '" ++ name ++ "'")))
  | none =>
    .error (.fatal ("Invalid version number '" ++ apiVersion ++ "' in profile '"
      ++ name ++ "'"))

/-- `VulkanProfile.validateStructDependency`.  `definedByVersion <=
apiVersion` is a Python string comparison (lexicographic by code point),
which Lean's `String` order matches. -/
def validateStructDependency (registry : VulkanRegistry)
    (profileName apiVersion : String) (capsExtensions : Dict Int)
    (structName : String) : Except PyErr Unit :=
  match dget registry.structs structName with
  | some structDef =>
    let depVersion : Bool :=
      match structDef.definedByVersion with
      | some v => pyStrLe v apiVersion
      | none => false
    let depExt : Bool :=
      structDef.definedByExtensions.any (fun e => dmem capsExtensions e)
    if depVersion || depExt then .ok ()
    else
      .error (.fatal ("Unexpected required struct '" ++ structName
        ++ "' in profile '" ++ profileName ++ "'"))
  | none =>
    .error (.fatal ("Struct '" ++ structName ++ "' in profile '" ++ profileName
      ++ "' does not exist in the registry"))

/-- The struct names visited by `validateStructDependencies`, in visit
order: feature keys, property keys, the keys of each queue-family record,
memory-property keys. -/
def validatedStructNames (caps : VulkanProfileCapabilities) : List String :=
  dkeys caps.features ++ dkeys caps.properties
    ++ caps.queueFamiliesProperties.flatMap dkeys ++ dkeys caps.memoryProperties

/-- The dependency condition `validateStructDependency` enforces for one
struct name: registered, and defined by a version `<=` the profile's
api-version (Python string comparison) or by an extension present in the
merged extension set. -/
def structDepSatisfied (registry : VulkanRegistry) (av : String)
    (exts : Dict Int) (n : String) : Prop :=
  ∃ sd, dget registry.structs n = some sd ∧
    ((∃ v, sd.definedByVersion = some v ∧ pyStrLe v av = true)
     ∨ ∃ e ∈ sd.definedByExtensions, dmem exts e = true)

/-- Error-propagating iteration over a list, in order: the shape of the
validation loops. -/
def exceptForList {a : Type} (f : a → Except PyErr Unit) : List a → Except PyErr Unit
  | [] => .ok ()
  | x :: t => do
    f x
    exceptForList f t

/-- `VulkanProfile.validateStructDependencies`: the four validation loops in
sequence, stopping at the first fatal error. -/
def validateStructDependencies (registry : VulkanRegistry)
    (profileName apiVersion : String) (caps : VulkanProfileCapabilities) :
    Except PyErr Unit :=
  exceptForList
    (validateStructDependency registry profileName apiVersion caps.extensions)
    (validatedStructNames caps)

/-- `VulkanProfile.__init__`: build capabilities, collect compile-time
requirements, validate struct dependencies. -/
def mkVulkanProfile (registry : VulkanRegistry) (name : String)
    (data : ProfileData) (capsPool : Dict Fragment) :
    Except PyErr VulkanProfile := do
  let capabilities ← mkVulkanProfileCapabilities registry data.capabilities capsPool
  let requirements ←
    collectCompileTimeRequirements registry name data.apiVersion capabilities.extensions
  validateStructDependencies registry name data.apiVersion capabilities
  .ok { name, version := data.version, apiVersion := data.apiVersion
        fallback := data.fallback, requirements, capabilities }

/-- `VulkanProfiles.parseProfiles`: register every profile of one file into
the shared map (plain dictionary assignment). -/
def parseProfiles (registry : VulkanRegistry) (profiles : Dict VulkanProfile)
    (json : Dict ProfileData) (caps : Dict Fragment) :
    Except PyErr (Dict VulkanProfile) :=
  json.foldlM
    (fun profiles p => do .ok (dset profiles p.1 (← mkVulkanProfile registry p.1 p.2 caps)))
    profiles

/-- `VulkanProfiles.loadFromDir`: each parsed profile file (in directory
listing order) contributes its `profiles` and `capabilities` maps.  The
filesystem walk and JSON parse are external; the input is the parsed file
contents. -/
def loadFromDir (registry : VulkanRegistry)
    (files : List (Dict ProfileData × Dict Fragment)) :
    Except PyErr (Dict VulkanProfile) :=
  files.foldlM (fun profiles f => parseProfiles registry profiles f.1 f.2) []

/-! ## Code emitter -/

/-- The four single-predicate format strings of `gen_compareStructVar`
(`'(({0} & {1}) == {1})'`, `'({0} >= {1})'`, `'({0} <= {1})'`,
`'({0} == {1})'`). -/
inductive PredForm where
  | bm | geF | leF | eqF
deriving DecidableEq, Repr

/-- `.format(device, profile)` on one of the four format strings. -/
def applyPredForm : PredForm → String → String → String
  | .bm, d, p => "((" ++ d ++ " & " ++ p ++ ") == " ++ p ++ ")"
  | .geF, d, p => "(" ++ d ++ " >= " ++ p ++ ")"
  | .leF, d, p => "(" ++ d ++ " <= " ++ p ++ ")"
  | .eqF, d, p => "(" ++ d ++ " == " ++ p ++ ")"

/-- The Python value bound to `comparePredFmt`: either one format string or
(for `range`) the two-element list `['({0} <= {1})', '({0} >= {1})']`. -/
inductive ComparePredFmt where
  | fmtStr (f : PredForm)
  | fmtList (fs : List PredForm)
deriving DecidableEq, Repr

/-- The `fmt` parameter of `gen_compareStructVar` is a caller-supplied
format string with a single `{0}` slot; `fmt.format(pred)` splices the
predicate between the surrounding text. -/
def fmtApply (fmt : String × String) (pred : String) : String :=
  fmt.1 ++ pred ++ fmt.2

/-- The `limittype` dispatch of `gen_compareStructVar` that selects
`comparePredFmt` (after the `IGNORE` test): bitmask, max, min, range, and
equality for `None`/`noauto`/`struct`; any other limittype is fatal. -/
def comparePredFmtFor (structName member : String)
    (limittype : Option String) : Except PyErr ComparePredFmt :=
  if limittype = some "bitmask" then .ok (.fmtStr .bm)
  else if limittype = some "max" then .ok (.fmtStr .geF)
  else if limittype = some "min" then .ok (.fmtStr .leF)
  else if limittype = some "range" then .ok (.fmtList [.leF, .geF])
  else if limittype = none ∨ limittype = some "noauto"
      ∨ limittype = some "struct" then .ok (.fmtStr .eqF)
  else
    .error (.fatal ("Unsupported limittype in member '" ++ member
      ++ "' of structure '" ++ structName ++ "'"))

/-- Error-propagating map over a list, in order: the shape of the
`for i in range(len(value))` emission loop. -/
def exceptMapList {a b : Type} (f : a → Except PyErr b) : List a → Except PyErr (List b)
  | [] => .ok []
  | x :: t => do
    let y ← f x
    let ys ← exceptMapList f t
    .ok (y :: ys)

mutual
/-- The body of the `for member, value in values.items()` loop of
`VulkanProfilesBuilder.gen_compareStructVar`, for one `(member, value)`
pair.  Returns the list of emitted `fmt.format(...)` strings (the source
concatenates them into `gen`). -/
def genCompareMember (registryStructs : Dict VulkanStruct)
    (fmt : String × String) (structDef : VulkanStruct)
    (deviceVar profileVar : String) (member : String) (value : Value) :
    Except PyErr (List String) :=
  match dget structDef.members member with
  | none =>
    .error (.fatal ("No member '" ++ member ++ "' in structure '"
      ++ structDef.name ++ "'"))
  | some mdef =>
    let limittype := mdef.limittype
    if limittype = some "IGNORE" then .ok []
    else do
      let comparePredFmt : ComparePredFmt ←
        comparePredFmtFor structDef.name member limittype
      match value with
      | .vDict vd =>
        (match dget registryStructs mdef.type with
         | some memberDef =>
           gen_compareStructVar registryStructs fmt memberDef
             (deviceVar ++ member ++ ".") (profileVar ++ member ++ ".") vd
         | none =>
           .error (.fatal ("Member '" ++ member ++ "' in structure '"
             ++ structDef.name ++ "' is not a struct")))
      | .vList xs =>
        if mdef.isArray then
          exceptMapList
            (fun i =>
              if limittype = some "range" then
                match [PredForm.leF, PredForm.geF].get? i with
                | some f =>
                  .ok (fmtApply fmt (applyPredForm f
                    (deviceVar ++ member ++ "[" ++ toString i ++ "]")
                    (profileVar ++ member ++ "[" ++ toString i ++ "]")))
                | none => .error (.indexError "list index out of range")
              else
                match comparePredFmt with
                | .fmtStr f =>
                  .ok (fmtApply fmt (applyPredForm f
                    (deviceVar ++ member ++ "[" ++ toString i ++ "]")
                    (profileVar ++ member ++ "[" ++ toString i ++ "]")))
                | .fmtList _ =>
                  .error (.attributeError "'list' object has no attribute 'format'"))
            (List.range xs.length)
        else
          match comparePredFmt with
          | .fmtStr f =>
            .ok [fmtApply fmt (applyPredForm f (deviceVar ++ member)
              (profileVar ++ member))]
          | .fmtList _ =>
            .error (.attributeError "'list' object has no attribute 'format'")
      | _ =>
        match comparePredFmt with
        | .fmtStr f =>
          .ok [fmtApply fmt (applyPredForm f (deviceVar ++ member)
            (profileVar ++ member))]
        | .fmtList _ =>
          .error (.attributeError "'list' object has no attribute 'format'")
  termination_by (sizeOf value, 0)
  decreasing_by all_goals (simp_wf; omega)

/-- `VulkanProfilesBuilder.gen_compareStructVar`: iterate the value tree in
order, concatenating the emissions of each member. -/
def gen_compareStructVar (registryStructs : Dict VulkanStruct)
    (fmt : String × String) (structDef : VulkanStruct)
    (deviceVar profileVar : String) :
    List (String × Value) → Except PyErr (List String)
  | [] => .ok []
  | (member, value) :: rest => do
    let g1 ← genCompareMember registryStructs fmt structDef deviceVar profileVar
      member value
    let g2 ← gen_compareStructVar registryStructs fmt structDef deviceVar
      profileVar rest
    .ok (g1 ++ g2)
  termination_by values => (sizeOf values, 1)
  decreasing_by all_goals (simp_wf; omega)
end

/-- One line of the `#if defined(..)` prerequisite block of
`gen_profileDefs` (`#if ` on the first requirement, alignment spaces
otherwise; ` && \` continuation except on the last). -/
def guardLine (isFirst isLast : Bool) (req : String) : String :=
  (if isFirst then "#if " else "    ") ++ "defined(" ++ req ++ ")"
    ++ (if isLast then "\n" else " && \\\n")

/-- The whole prerequisite block (the `for i, requirement in
enumerate(profile.requirements)` loop). -/
def guardLines : Bool → List String → String
  | _, [] => ""
  | isFirst, [r] => guardLine isFirst true r
  | isFirst, r :: rest@(_ :: _) => guardLine isFirst false r ++ guardLines false rest

/-- The per-profile block emitted by `VulkanProfilesBuilder.gen_profileDefs`.
`pyUpper` models `str.upper()` (profile names are ASCII macro names);
`pyReplaceChar` models the `apiVersion.replace(".", ", ")` of the
`VK_MAKE_VERSION` argument list. -/
def gen_profileDef (name : String) (profile : VulkanProfile) : String :=
  let uname := pyUpper name
  "\n"
    ++ (if profile.requirements.isEmpty then "" else guardLines true profile.requirements)
    ++ "#define " ++ name ++ " 1\n"
    ++ "#define " ++ uname ++ "_NAME \"" ++ name ++ "\"\n"
    ++ "#define " ++ uname ++ "_SPEC_VERSION " ++ toString profile.version ++ "\n"
    ++ "#define " ++ uname ++ "_MIN_API_VERSION VK_MAKE_VERSION("
    ++ (pyReplaceChar profile.apiVersion '.' ", ") ++ ")\n"
    ++ (if profile.requirements.isEmpty then "" else "#endif\n")

/-- `VulkanProfilesBuilder.gen_profileDefs`: the blocks of all profiles in
registration order. -/
def gen_profileDefs (profiles : Dict VulkanProfile) : String :=
  profiles.foldl (fun g p => g ++ gen_profileDef p.1 p.2) ""

/-! ## Concrete fixtures used by witnesses and counterexamples -/

/-- The spec's synthetic struct: one member per limittype of the comparison
table. -/
def synthStruct : VulkanStruct where
  name := "VkSynthetic"
  aliases := ["VkSynthetic"]
  members :=
    [ ("mBitmask", ⟨"mBitmask", "VkFlags", some "bitmask", false⟩),
      ("mMax", ⟨"mMax", "uint32_t", some "max", false⟩),
      ("mMin", ⟨"mMin", "uint32_t", some "min", false⟩),
      ("mRange", ⟨"mRange", "float", some "range", true⟩),
      ("mEq", ⟨"mEq", "uint32_t", some "noauto", false⟩),
      ("mIgnore", ⟨"mIgnore", "uint32_t", some "IGNORE", false⟩) ]

/-- A registry with one version and one struct defined by it, used by the
dependency-validation witness. -/
def c3Registry : VulkanRegistry :=
  { platforms := [], versions := [("1.0", ⟨"VK_VERSION_1_0", "1.0", []⟩)],
    extensions := [],
    structs := [("VkFoo", ⟨"VkFoo", none, [], [], ["VkFoo"], some "1.0", []⟩)] }

/-- Capabilities referencing `VkFoo` from a queue-family record. -/
def c3Caps : VulkanProfileCapabilities :=
  { queueFamiliesProperties := [[("VkFoo", .vDict [])]] }


/-- A one-version registry used by the profile-loader theorems. -/
def c5Registry : VulkanRegistry :=
  { platforms := [], versions := [("1.0", ⟨"VK_VERSION_1_0", "1.0", []⟩)],
    extensions := [], structs := [] }

/-- Two profile files that both define profile `VP_DUP` (spec versions 1
and 2). -/
def c5File1 : Dict ProfileData × Dict Fragment :=
  ([("VP_DUP", ⟨1, "1.0.0", none, []⟩)], [])

def c5File2 : Dict ProfileData × Dict Fragment :=
  ([("VP_DUP", ⟨2, "1.0.0", none, []⟩)], [])

/-- The profile entries of a list of files, in registration order, each
paired with its own file's capability pool. -/
def profileEntries (files : List (Dict ProfileData × Dict Fragment)) :
    List (String × ProfileData × Dict Fragment) :=
  files.flatMap (fun f => f.1.map (fun p => (p.1, p.2, f.2)))

/-- The payload of the last entry with the given name, if any. -/
def findLastEntry {b : Type} (es : List (String × b)) (nm : String) : Option b :=
  es.foldl (fun acc e => if e.1 = nm then some e.2 else acc) none

/-- Registration of a flat entry list into the profiles map (the combined
effect of `loadFromDir`'s file loop and `parseProfiles`'s entry loop). -/
def processEntries (registry : VulkanRegistry) (acc : Dict VulkanProfile) :
    List (String × ProfileData × Dict Fragment) →
      Except PyErr (Dict VulkanProfile)
  | [] => .ok acc
  | (nm, data, pool) :: rest => do
    processEntries registry (dset acc nm (← mkVulkanProfile registry nm data pool)) rest

/-- The extension-classification invariant of `VulkanProfileCapabilities`:
the per-kind maps contain exactly the merged extensions of that registry
kind. -/
def extInvariant (registry : VulkanRegistry)
    (caps : VulkanProfileCapabilities) : Prop :=
  ∀ e : String,
    (dmem caps.instanceExtensions e = true →
      ∃ ei, dget registry.extensions e = some ei ∧ ei.type = some "instance"
        ∧ dmem caps.extensions e = true)
    ∧ (dmem caps.deviceExtensions e = true →
      ∃ ei, dget registry.extensions e = some ei ∧ ei.type = some "device"
        ∧ dmem caps.extensions e = true)
    ∧ (dmem caps.extensions e = true →
      dmem caps.instanceExtensions e = true ∨ dmem caps.deviceExtensions e = true)

/-- A registry with a single device extension, used by the classification
witness. -/
def c7Registry : VulkanRegistry :=
  { platforms := [],
    versions := [("1.0", ⟨"VK_VERSION_1_0", "1.0", []⟩)],
    extensions := [("VK_KHR_swapchain",
      ⟨"VK_KHR_swapchain", "VK_KHR_SWAPCHAIN", some "device", none, []⟩)],
    structs := [] }

/-- A capability pool declaring `VK_KHR_swapchain` at spec version 70. -/
def c7Pool : Dict Fragment :=
  [("cap1", { extensions := some [("VK_KHR_swapchain", 70)] })]

/-- A profile entry using that capability. -/
def c7Data : ProfileData := ⟨1, "1.0.0", none, ["cap1"]⟩

/-- The profile `c7Data` resolves to against `c7Registry`. -/
def c7Profile : VulkanProfile :=
  { name := "VP_TEST", version := 1, apiVersion := "1.0.0", fallback := none
    requirements := ["VK_VERSION_1_0", "VK_KHR_swapchain"]
    capabilities :=
      { extensions := [("VK_KHR_swapchain", 70)]
        deviceExtensions := [("VK_KHR_swapchain", 70)] } }

/-! ### Proof-side views of the workaround pass -/

/-- A key-preserving map over every member of every struct. -/
def entryMap (f : String → String → VulkanStructMember → VulkanStructMember)
    (n : String) (st : VulkanStruct) : VulkanStruct :=
  { st with members := st.members.map (fun q => (q.1, f n q.1 q.2)) }

def memberMap (f : String → String → VulkanStructMember → VulkanStructMember)
    (structs : Dict VulkanStruct) : Dict VulkanStruct :=
  structs.map (fun p => (p.1, entryMap f p.1 p.2))

/-- The member-level effect of one limittype-table entry. -/
def updFn (sn mn lt : String) (n mn' : String) (m : VulkanStructMember) :
    VulkanStructMember :=
  if n = sn ∧ mn' = mn then { m with limittype := some lt } else m

/-- The member-level effect of the `bitmask`/`VkBool32` rewrite. -/
def p2mFn (m : VulkanStructMember) : VulkanStructMember :=
  if m.limittype = some "bitmask" ∧ m.type = "VkBool32" then
    { m with limittype := some "noauto" }
  else m

/-- The accumulated member-level effect of a limittype table, applied front
to back. -/
def tableMemberFn : List (String × String × String) →
    String → String → VulkanStructMember → VulkanStructMember
  | [], _, _, m => m
  | (sn, mn, lt) :: rest, n, mn', m => tableMemberFn rest n mn' (updFn sn mn lt n mn' m)

/-- The last limittype the table assigns to `(n, mn')`, if any. -/
def lastMatch : List (String × String × String) → String → String → Option String
  | [], _, _ => none
  | (sn, mn, lt) :: rest, n, mn' =>
    match lastMatch rest n mn' with
    | some r => some r
    | none => if n = sn ∧ mn' = mn then some lt else none

def applyLast : Option String → VulkanStructMember → VulkanStructMember
  | some lt, m => { m with limittype := some lt }
  | none, m => m

def c9Member (nm ty : String) (lt : Option String) :
    String × VulkanStructMember :=
  (nm, { name := nm, type := ty, limittype := lt })

/-- A registry-struct map holding every struct/member targeted by the
workaround table (as the real `vk.xml` does), plus one `VkBool32` member
with `limittype='bitmask'` to exercise the second pass. -/
def c9Structs : Dict VulkanStruct :=
  [ ("VkPhysicalDeviceLimits",
     { name := "VkPhysicalDeviceLimits", aliases := [],
       members :=
        [ c9Member "bufferImageGranularity" "VkDeviceSize" (some "noauto"),
          c9Member "subPixelPrecisionBits" "uint32_t" (some "noauto"),
          c9Member "subTexelPrecisionBits" "uint32_t" (some "noauto"),
          c9Member "mipmapPrecisionBits" "uint32_t" (some "noauto"),
          c9Member "viewportSubPixelBits" "uint32_t" (some "noauto"),
          c9Member "minMemoryMapAlignment" "size_t" (some "noauto"),
          c9Member "minTexelBufferOffsetAlignment" "VkDeviceSize" (some "noauto"),
          c9Member "minUniformBufferOffsetAlignment" "VkDeviceSize" (some "noauto"),
          c9Member "minStorageBufferOffsetAlignment" "VkDeviceSize" (some "noauto"),
          c9Member "subPixelInterpolationOffsetBits" "uint32_t" (some "noauto"),
          c9Member "timestampPeriod" "float" (some "noauto"),
          c9Member "nonCoherentAtomSize" "VkDeviceSize" (some "noauto"),
          c9Member "maxColorAttachments" "uint32_t" (some "max"),
          c9Member "pointSizeGranularity" "float" (some "noauto"),
          c9Member "lineWidthGranularity" "float" (some "noauto") ] }),
    ("VkPhysicalDeviceVulkan11Properties",
     { name := "VkPhysicalDeviceVulkan11Properties", aliases := [],
       members :=
        [ c9Member "subgroupSize" "uint32_t" (some "noauto"),
          c9Member "subgroupQuadOperationsInAllStages" "VkBool32"
            (some "bitmask") ] }),
    ("VkPhysicalDevicePortabilitySubsetPropertiesKHR",
     { name := "VkPhysicalDevicePortabilitySubsetPropertiesKHR", aliases := [],
       members :=
        [ c9Member "minVertexInputBindingStrideAlignment" "VkDeviceSize"
            (some "noauto") ] }) ]

/-- The (successful) result of the workaround pass on `c9Structs`. -/
def c9Fixed : Dict VulkanStruct :=
  match applyWorkarounds c9Structs with
  | Except.ok r => r
  | Except.error _ => []

/-- The struct and member a table entry targets both exist. -/
def memberPresent (s : Dict VulkanStruct) (sn mn : String) : Prop :=
  ∃ st, dget s sn = some st ∧ dmem st.members mn = true

/-- Keys are unique at the struct level and inside every member table (the
invariant of every registry state built from Python dictionaries). -/
def regNodup (s : Dict VulkanStruct) : Prop :=
  (dkeys s).Nodup ∧ ∀ p ∈ s, (dkeys p.2.members).Nodup

/-- The alias-closure invariant the alias pass actually maintains: every
struct occurs in its own aliases list, and every name in a struct's aliases
list names a registered struct carrying the same aliases list and the same
members table (the shared Python list/dict objects). -/
def aliasInv (structs : Dict VulkanStruct) : Prop :=
  ∀ p ∈ structs, p.1 ∈ p.2.aliases ∧
    ∀ n ∈ p.2.aliases, ∃ sn, dget structs n = some sn ∧
      sn.aliases = p.2.aliases ∧ sn.members = p.2.members

def c4Limit (nm ty : String) : XmlMember :=
  { name := nm, type := ty, limittype := some "noauto" }

/-- A registry document with one struct (`VkX`, sType
`VK_STRUCTURE_TYPE_X`) aliased by `VkXKHR`, whose defining extension
`VK_KHR_x` carries the structure-type alias enum, plus the structs the
hard-coded workaround pass insists on. -/
def c4Xml : XmlRegistry :=
  { platforms := []
    features := []
    extensions :=
      [ { name := "VK_KHR_x", supported := "vulkan", type := some "device"
          enums :=
            [ { name := "VK_KHR_X_EXTENSION_NAME", value := some "\"VK_KHR_x\"" },
              { name := "VK_STRUCTURE_TYPE_X_KHR"
                aliasAttr := some "VK_STRUCTURE_TYPE_X" } ]
          requireTypes := ["VkXKHR"] } ]
    structTypes :=
      [ { name := "VkPhysicalDeviceLimits"
          members :=
            [ c4Limit "bufferImageGranularity" "VkDeviceSize",
              c4Limit "subPixelPrecisionBits" "uint32_t",
              c4Limit "subTexelPrecisionBits" "uint32_t",
              c4Limit "mipmapPrecisionBits" "uint32_t",
              c4Limit "viewportSubPixelBits" "uint32_t",
              c4Limit "minMemoryMapAlignment" "size_t",
              c4Limit "minTexelBufferOffsetAlignment" "VkDeviceSize",
              c4Limit "minUniformBufferOffsetAlignment" "VkDeviceSize",
              c4Limit "minStorageBufferOffsetAlignment" "VkDeviceSize",
              c4Limit "subPixelInterpolationOffsetBits" "uint32_t",
              c4Limit "timestampPeriod" "float",
              c4Limit "nonCoherentAtomSize" "VkDeviceSize",
              c4Limit "maxColorAttachments" "uint32_t",
              c4Limit "pointSizeGranularity" "float",
              c4Limit "lineWidthGranularity" "float" ] },
        { name := "VkPhysicalDeviceVulkan11Properties"
          members := [ c4Limit "subgroupSize" "uint32_t" ] },
        { name := "VkPhysicalDevicePortabilitySubsetPropertiesKHR"
          members := [ c4Limit "minVertexInputBindingStrideAlignment"
            "VkDeviceSize" ] },
        { name := "VkX"
          members :=
            [ { name := "sType", type := "VkStructureType"
                values := some "VK_STRUCTURE_TYPE_X" },
              { name := "m", type := "uint32_t", limittype := some "max" } ] },
        { name := "VkXKHR", aliasAttr := some "VkX" } ] }

/-- The (successful) result of loading `c4Xml`. -/
def c4Reg : VulkanRegistry :=
  match loadRegistry c4Xml with
  | Except.ok r => r
  | Except.error _ => ⟨[], [], [], []⟩

/-- The extension table for the alias-step witness. -/
def c4wExtensions : Dict VulkanExtension :=
  [ ("VK_KHR_x",
     { name := "VK_KHR_x", upperCaseName := "VK_KHR_X"
       type := some "device", platform := none
       sTypeAliases := [("VK_STRUCTURE_TYPE_X", "VK_STRUCTURE_TYPE_X_KHR")] }) ]

/-- The struct table for the alias-step witness: a base struct and a
not-yet-linked alias struct. -/
def c4wStructs : Dict VulkanStruct :=
  [ ("VkX",
     { name := "VkX", sType := some "VK_STRUCTURE_TYPE_X"
       members := [("m", { name := "m", type := "uint32_t"
                           limittype := some "max" })]
       aliases := ["VkX"] }),
    ("VkXKHR",
     { name := "VkXKHR", aliases := ["VkXKHR"]
       definedByExtensions := ["VK_KHR_x"] }) ]

/-- The (successful) result of the alias step on `c4wStructs`. -/
def c4wOut : Dict VulkanStruct :=
  match parseAliasStep [] c4wExtensions c4wStructs "VkXKHR" "VkX" with
  | Except.ok r => r
  | Except.error _ => []

/-! ## General helper lemmas -/

theorem dropWhile_append_of_all {p : Char → Bool} :
    ∀ (l₁ l₂ : List Char), (∀ c ∈ l₁, p c = true) →
      (l₁ ++ l₂).dropWhile p = l₂.dropWhile p
  | [], l₂, _ => rfl
  | c :: t, l₂, h => by
    have hc : p c = true := h c (by simp)
    simp only [List.cons_append, List.dropWhile_cons, hc, if_true]
    exact dropWhile_append_of_all t l₂ (fun x hx => h x (by simp [hx]))

theorem dropWhile_eq_nil_of_all {p : Char → Bool} :
    ∀ (l : List Char), (∀ c ∈ l, p c = true) → l.dropWhile p = []
  | [], _ => rfl
  | c :: t, h => by
    have hc : p c = true := h c (by simp)
    simp only [List.dropWhile_cons, hc, if_true]
    exact dropWhile_eq_nil_of_all t (fun x hx => h x (by simp [hx]))

/-! ## Claim C6: a malformed feature number raises `TypeError`, not the
fatal registry error -/

/-- **C6, divergence witness**: loading a registry whose only feature node
has `number="0.9"` (which does not match `^[1-9][0-9]*\.[0-9]+$`) fails with
a Python `TypeError`, because `parseVersionInfo` invokes the one-parameter
`Log.f` with two arguments; the fatal `RegistryConsistency` error carrying
the offending number is never raised. -/
theorem c6_bad_feature_number_raises_typeError :
    loadRegistry { features := [{ name := "VK_VERSION_0_9", number := "0.9" }] }
      = .error (.typeError "f() takes 1 positional argument but 2 were given") := by
  rfl

/-! ## Claim C10: a bare `major.minor` api-version is rejected -/

/-- **C10**: for any profile whose `api-version` string is exactly a
major.minor pair (nonempty digit runs around a single dot, leading digit
`1`-`9`, nothing after), `collectCompileTimeRequirements` fails with the
fatal invalid-version error, for every registry: the version pattern
`^([1-9][0-9]*\.[0-9]+)[^0-9].*$` demands a non-digit character after the
major.minor prefix. -/
theorem c10_bare_major_minor_is_invalid (registry : VulkanRegistry)
    (name : String) (exts : Dict Int) (c : Char) (ds fs : List Char)
    (hc1 : '1' ≤ c) (hc9 : c ≤ '9')
    (hds : ∀ d ∈ ds, d.isDigit = true)
    (hfs0 : fs ≠ []) (hfs : ∀ d ∈ fs, d.isDigit = true) :
    collectCompileTimeRequirements registry name
        (String.mk (c :: ds ++ '.' :: fs)) exts
      = .error (.fatal ("Invalid version number '"
          ++ String.mk (c :: ds ++ '.' :: fs) ++ "' in profile '" ++ name ++ "'")) := by
  have hdrop : (ds ++ '.' :: fs).dropWhile Char.isDigit = '.' :: fs := by
    rw [dropWhile_append_of_all ds ('.' :: fs) hds]
    simp [List.dropWhile_cons, show ('.' : Char).isDigit = false from rfl]
  have htake : fs.takeWhile Char.isDigit = fs := List.takeWhile_eq_self_iff.mpr hfs
  have hdropfs : fs.dropWhile Char.isDigit = [] := dropWhile_eq_nil_of_all fs hfs
  have hsearch : apiVersionSearch (String.mk (c :: ds ++ '.' :: fs)) = none := by
    unfold apiVersionSearch
    split
    · rfl
    · rename_i c' rest' heq
      have heq' : c :: (ds ++ '.' :: fs) = c' :: rest' := heq
      injection heq' with h1 h2
      subst h1; subst h2
      rw [if_pos (And.intro hc1 hc9), hdrop]
      split
      · rename_i rest2 heq2
        injection heq2 with h3 h4
        subst h4
        rw [htake, hdropfs]
        cases fs with
        | nil => exact absurd rfl hfs0
        | cons a t => simp
      · rfl
  unfold collectCompileTimeRequirements
  rw [hsearch]

/-- Witness for C10 at the concrete input `"1.2"`. -/
theorem c10_bare_major_minor_is_invalid_witness :
    collectCompileTimeRequirements
        { platforms := [], versions := [], extensions := [], structs := [] }
        "VP_TEST" (String.mk ['1', '.', '2']) []
      = .error (.fatal ("Invalid version number '" ++ String.mk ['1', '.', '2']
          ++ "' in profile 'VP_TEST'")) :=
  c10_bare_major_minor_is_invalid
    { platforms := [], versions := [], extensions := [], structs := [] }
    "VP_TEST" [] '1' [] ['2'] (by decide) (by decide)
    (by intro d hd; cases hd) (by decide)
    (by intro d hd; simp at hd; rw [hd]; rfl)

/-! ## Claim C8: guard block and min-api define for api-version `1.2.0`
with no extensions -/

/-- **C8**: for every profile with `api-version "1.2.0"` and an empty merged
extension set, against any registry whose version map binds number `"1.2"`:
the collected requirements are exactly the guard symbol of that version, and
the emitted per-profile block consists of the guard `#if defined(<guard>)`
(no extension conjuncts), the four defines, and `#endif`, with the
min-API-version define expanding to `VK_MAKE_VERSION(1, 2, 0)`. -/
theorem c8_guard_block_for_1_2_0 (registry : VulkanRegistry)
    (ver : VulkanVersion) (name : String) (pversion : Int)
    (fallback : Option (List String)) (caps : VulkanProfileCapabilities)
    (hver : dget registry.versions "1.2" = some ver)
    (hext : caps.extensions = []) :
    collectCompileTimeRequirements registry name "1.2.0" caps.extensions
      = .ok [ver.name]
    ∧ gen_profileDef name
        { name := name, version := pversion, apiVersion := "1.2.0"
          fallback := fallback, requirements := [ver.name], capabilities := caps }
      = "\n" ++ "#if defined(" ++ ver.name ++ ")\n"
        ++ "#define " ++ name ++ " 1\n"
        ++ "#define " ++ pyUpper name ++ "_NAME \"" ++ name ++ "\"\n"
        ++ "#define " ++ pyUpper name ++ "_SPEC_VERSION " ++ toString pversion ++ "\n"
        ++ "#define " ++ pyUpper name
        ++ "_MIN_API_VERSION VK_MAKE_VERSION(1, 2, 0)\n"
        ++ "#endif\n" := by
  constructor
  · unfold collectCompileTimeRequirements
    rw [show apiVersionSearch "1.2.0" = some "1.2" from rfl]
    dsimp only
    rw [hver]
    dsimp only
    rw [hext]
    rfl
  · unfold gen_profileDef guardLines guardLine
    simp only [List.isEmpty_cons, Bool.false_eq_true, if_false]
    apply String.ext
    simp only [String.data_append, List.append_assoc]
    rfl

/-- Witness for C8 at a concrete registry and profile. -/
theorem c8_guard_block_for_1_2_0_witness :
    collectCompileTimeRequirements
        { platforms := [], extensions := [], structs := []
          versions := [("1.2", { name := "VK_VERSION_1_2", number := "1.2" })] }
        "VP_TEST_profile" "1.2.0" ({} : VulkanProfileCapabilities).extensions
      = .ok ["VK_VERSION_1_2"]
    ∧ gen_profileDef "VP_TEST_profile"
        { name := "VP_TEST_profile", version := 1, apiVersion := "1.2.0"
          fallback := none, requirements := ["VK_VERSION_1_2"]
          capabilities := {} }
      = "\n#if defined(VK_VERSION_1_2)\n"
        ++ "#define VP_TEST_profile 1\n"
        ++ "#define VP_TEST_PROFILE_NAME \"VP_TEST_profile\"\n"
        ++ "#define VP_TEST_PROFILE_SPEC_VERSION 1\n"
        ++ "#define VP_TEST_PROFILE_MIN_API_VERSION VK_MAKE_VERSION(1, 2, 0)\n"
        ++ "#endif\n" := by
  have h := c8_guard_block_for_1_2_0
    { platforms := [], extensions := [], structs := []
      versions := [("1.2", { name := "VK_VERSION_1_2", number := "1.2" })] }
    { name := "VK_VERSION_1_2", number := "1.2" }
    "VP_TEST_profile" 1 none {} (by rfl) (by rfl)
  exact ⟨h.1, by rw [h.2]; rfl⟩

/-! ## Claim C2: deep-merge rules for capability fragments -/

/-- **C2, counterexample**: merging a fragment value that sets member `k` to
an array onto capabilities in which `k` already holds a scalar is a type
mismatch, but it does not raise the fatal `ConflictError` (`Log.f`, modelled
by `PyErr.fatal`): the source runs `dst[key].extend(val)` on the scalar,
which raises an uncontrolled Python `AttributeError`. -/
theorem c2_array_onto_scalar_is_attributeError :
    mergeProfileCapData (.vDict [("k", .vInt 1)]) (.vDict [("k", .vList [.vInt 2])])
      = .error (.attributeError "object has no attribute 'extend'") := by
  simp [mergeProfileCapData, mergeItems, mergeEntry, Value.ty, dget, Bind.bind, Except.bind]

/-- **C2, amended**: the deep merge obeys: scalars and booleans overwrite
(after a type check against any existing value), arrays concatenate onto the
existing array (an empty array is created first when the key is absent),
objects recurse (into a fresh empty dict when the key is absent), and a type
mismatch raises the fatal `ConflictError` when the incoming value is a
scalar, boolean or object — but an incoming *array* onto an existing
non-array raises an uncontrolled `AttributeError` instead.  Fragments are
merged pairwise in order. -/
theorem c2_merge_rules (dstd : Dict Value) (key : String) :
    (∀ val : Value, val.ty ≠ .tDict → val.ty ≠ .tList →
      (dget dstd key = none ∨ (∃ old, dget dstd key = some old ∧ old.ty = val.ty)) →
      mergeEntry dstd key val = .ok (dset dstd key val))
    ∧ (∀ val old, val.ty ≠ .tDict → val.ty ≠ .tList →
        dget dstd key = some old → old.ty ≠ val.ty →
        mergeEntry dstd key val
          = .error (.fatal "Data type confict during profile capability data merge"))
    ∧ (∀ xs old, dget dstd key = some (.vList old) →
        mergeEntry dstd key (.vList xs) = .ok (dset dstd key (.vList (old ++ xs))))
    ∧ (∀ xs, dget dstd key = none →
        mergeEntry dstd key (.vList xs) = .ok (dset dstd key (.vList xs)))
    ∧ (∀ xs old, dget dstd key = some old → old.ty ≠ .tList →
        mergeEntry dstd key (.vList xs)
          = .error (.attributeError "object has no attribute 'extend'"))
    ∧ (∀ sd cd, dget dstd key = some (.vDict cd) →
        mergeEntry dstd key (.vDict sd)
          = (mergeItems cd sd).map (fun m => dset dstd key (.vDict m)))
    ∧ (∀ sd, dget dstd key = none →
        mergeEntry dstd key (.vDict sd)
          = (mergeItems [] sd).map (fun m => dset dstd key (.vDict m)))
    ∧ (∀ sd old, dget dstd key = some old → old.ty ≠ .tDict →
        mergeEntry dstd key (.vDict sd)
          = .error (.fatal "Data type confict during profile capability data merge"))
    ∧ (∀ (val : Value) (rest : List (String × Value)),
        mergeItems dstd ((key, val) :: rest)
          = (mergeEntry dstd key val).bind (fun d => mergeItems d rest)) := by
  refine ⟨?h1, ?h2, ?h3, ?h4, ?h5, ?h6, ?h7, ?h8, ?h9⟩
  · intro val hd hl hget
    cases val with
    | vDict d => exact absurd rfl hd
    | vList l => exact absurd rfl hl
    | vBool b =>
      rcases hget with h | ⟨old, hold, hty⟩
      · simp [mergeEntry, h]
      · simp [mergeEntry, hold, hty.symm]
    | vInt n =>
      rcases hget with h | ⟨old, hold, hty⟩
      · simp [mergeEntry, h]
      · simp [mergeEntry, hold, hty.symm]
    | vStr s =>
      rcases hget with h | ⟨old, hold, hty⟩
      · simp [mergeEntry, h]
      · simp [mergeEntry, hold, hty.symm]
  · intro val old hd hl hget hty
    cases val with
    | vDict d => exact absurd rfl hd
    | vList l => exact absurd rfl hl
    | vBool b => simp [mergeEntry, hget, hty]
    | vInt n => simp [mergeEntry, hget, hty]
    | vStr s => simp [mergeEntry, hget, hty]
  · intro xs old hget
    simp [mergeEntry, hget]
  · intro xs hget
    simp [mergeEntry, hget]
  · intro xs old hget hty
    cases old with
    | vList l => exact absurd rfl hty
    | vDict d => simp [mergeEntry, hget]
    | vBool b => simp [mergeEntry, hget]
    | vInt n => simp [mergeEntry, hget]
    | vStr s => simp [mergeEntry, hget]
  · intro sd cd hget
    simp only [mergeEntry, hget]
    simp only [mergeProfileCapData, Value.ty]
    cases h : mergeItems cd sd <;> simp [Except.map, Bind.bind, Except.bind]
  · intro sd hget
    simp only [mergeEntry, hget]
    simp only [mergeProfileCapData, Value.ty]
    cases h : mergeItems ([] : Dict Value) sd <;> simp [Except.map, Bind.bind, Except.bind]
  · intro sd old hget hty
    simp only [mergeEntry, hget]
    cases old with
    | vDict d => exact absurd rfl hty
    | vList l => simp [mergeProfileCapData, Value.ty, Bind.bind, Except.bind]
    | vBool b => simp [mergeProfileCapData, Value.ty, Bind.bind, Except.bind]
    | vInt n => simp [mergeProfileCapData, Value.ty, Bind.bind, Except.bind]
    | vStr s => simp [mergeProfileCapData, Value.ty, Bind.bind, Except.bind]
  · intro val rest
    simp only [mergeItems]
    cases h : mergeEntry dstd key val <;> simp [Bind.bind, Except.bind]

/-- Witness for the amended C2 at concrete inputs: overwriting a scalar with
a later-merged scalar value yields the later value. -/
theorem c2_merge_rules_witness :
    mergeEntry [("geometryShader", .vBool true)] "geometryShader" (.vBool false)
      = .ok [("geometryShader", .vBool false)] := by
  have h := (c2_merge_rules [("geometryShader", .vBool true)] "geometryShader").1
    (.vBool false) (by simp [Value.ty]) (by simp [Value.ty])
    (Or.inr ⟨.vBool true, by simp [dget], rfl⟩)
  simpa [dset] using h

/-! ## Claim C1: the comparison synthesizer's limittype table -/

theorem exceptMapList_ok {α β : Type} (f : α → Except PyErr β) (g : α → β) :
    ∀ l : List α, (∀ x ∈ l, f x = .ok (g x)) → exceptMapList f l = .ok (l.map g)
  | [], _ => rfl
  | a :: t, h => by
    have ht := exceptMapList_ok f g t (fun x hx => h x (by simp [hx]))
    simp [exceptMapList, h a (by simp), ht, Bind.bind, Except.bind]

/-- The single-predicate form a supported non-`range` limittype selects. -/
def singleFormOf : Option String → Option PredForm
  | some "bitmask" => some .bm
  | some "max" => some .geF
  | some "min" => some .leF
  | some "noauto" => some .eqF
  | some "struct" => some .eqF
  | none => some .eqF
  | _ => none

theorem singleFormOf_spec (sn m : String) (lt : Option String) (f : PredForm)
    (h : singleFormOf lt = some f) :
    comparePredFmtFor sn m lt = .ok (.fmtStr f)
      ∧ lt ≠ some "IGNORE" ∧ lt ≠ some "range" := by
  unfold singleFormOf at h
  split at h <;> simp_all [comparePredFmtFor]

/-- **C1**: for every struct definition, registry and value tree, the
comparison synthesizer emits per member exactly what the member's
`limittype` dictates: `IGNORE` emits nothing; `bitmask` emits
`(device & profile) == profile`; `max` emits `device >= profile`; `min`
emits `device <= profile`; `noauto`, `struct` or a missing limittype emit
`device == profile`; any other limittype is the fatal emitter error;
`range` on an `is_array` member with a two-element array emits
`device[0] <= profile[0]` and `device[1] >= profile[1]`; a nested object
value recurses into the nested struct with extended variable paths;
an `is_array` member gets one predicate per index; and the loop
concatenates the per-member emissions in order. -/
theorem c1_compare_predicate_mapping (regs : Dict VulkanStruct)
    (fmt : String × String) (sd : VulkanStruct) (dvar pvar member : String)
    (mdef : VulkanStructMember)
    (hmem : dget sd.members member = some mdef) :
    (mdef.limittype = some "IGNORE" → ∀ v : Value,
      genCompareMember regs fmt sd dvar pvar member v = .ok [])
    ∧ (mdef.limittype = some "bitmask" → ∀ v : Value,
        v.ty ≠ .tDict → v.ty ≠ .tList →
        genCompareMember regs fmt sd dvar pvar member v
          = .ok [fmtApply fmt (applyPredForm .bm (dvar ++ member) (pvar ++ member))])
    ∧ (mdef.limittype = some "max" → ∀ v : Value,
        v.ty ≠ .tDict → v.ty ≠ .tList →
        genCompareMember regs fmt sd dvar pvar member v
          = .ok [fmtApply fmt (applyPredForm .geF (dvar ++ member) (pvar ++ member))])
    ∧ (mdef.limittype = some "min" → ∀ v : Value,
        v.ty ≠ .tDict → v.ty ≠ .tList →
        genCompareMember regs fmt sd dvar pvar member v
          = .ok [fmtApply fmt (applyPredForm .leF (dvar ++ member) (pvar ++ member))])
    ∧ ((mdef.limittype = none ∨ mdef.limittype = some "noauto"
          ∨ mdef.limittype = some "struct") → ∀ v : Value,
        v.ty ≠ .tDict → v.ty ≠ .tList →
        genCompareMember regs fmt sd dvar pvar member v
          = .ok [fmtApply fmt (applyPredForm .eqF (dvar ++ member) (pvar ++ member))])
    ∧ (∀ l, mdef.limittype = some l →
        l ∉ ["bitmask", "max", "min", "range", "noauto", "struct", "IGNORE"] →
        ∀ v : Value,
        genCompareMember regs fmt sd dvar pvar member v
          = .error (.fatal ("Unsupported limittype in member '" ++ member
              ++ "' of structure '" ++ sd.name ++ "'")))
    ∧ (mdef.limittype = some "range" → mdef.isArray = true → ∀ x y : Value,
        genCompareMember regs fmt sd dvar pvar member (.vList [x, y])
          = .ok [fmtApply fmt (applyPredForm .leF (dvar ++ member ++ "[0]")
                   (pvar ++ member ++ "[0]")),
                 fmtApply fmt (applyPredForm .geF (dvar ++ member ++ "[1]")
                   (pvar ++ member ++ "[1]"))])
    ∧ (∀ vd inner cpf, mdef.limittype ≠ some "IGNORE" →
        comparePredFmtFor sd.name member mdef.limittype = .ok cpf →
        dget regs mdef.type = some inner →
        genCompareMember regs fmt sd dvar pvar member (.vDict vd)
          = gen_compareStructVar regs fmt inner (dvar ++ member ++ ".")
              (pvar ++ member ++ ".") vd)
    ∧ (∀ xs f, mdef.isArray = true → singleFormOf mdef.limittype = some f →
        genCompareMember regs fmt sd dvar pvar member (.vList xs)
          = .ok ((List.range xs.length).map (fun i =>
              fmtApply fmt (applyPredForm f
                (dvar ++ member ++ "[" ++ toString i ++ "]")
                (pvar ++ member ++ "[" ++ toString i ++ "]")))))
    ∧ (∀ (v : Value) (rest : List (String × Value)),
        gen_compareStructVar regs fmt sd dvar pvar ((member, v) :: rest)
          = (genCompareMember regs fmt sd dvar pvar member v).bind (fun g1 =>
              (gen_compareStructVar regs fmt sd dvar pvar rest).map
                (fun g2 => g1 ++ g2))) := by
  refine ⟨?hIgn, ?hBm, ?hMax, ?hMin, ?hEq, ?hBad, ?hRange, ?hNest, ?hArr, ?hLoop⟩
  · intro hlt v
    simp [genCompareMember, hmem, hlt]
  · intro hlt v hd hl
    cases v with
    | vDict d => exact absurd rfl hd
    | vList l => exact absurd rfl hl
    | vBool b => simp [genCompareMember, hmem, hlt, comparePredFmtFor,
        Bind.bind, Except.bind]
    | vInt n => simp [genCompareMember, hmem, hlt, comparePredFmtFor,
        Bind.bind, Except.bind]
    | vStr s => simp [genCompareMember, hmem, hlt, comparePredFmtFor,
        Bind.bind, Except.bind]
  · intro hlt v hd hl
    cases v with
    | vDict d => exact absurd rfl hd
    | vList l => exact absurd rfl hl
    | vBool b => simp [genCompareMember, hmem, hlt, comparePredFmtFor,
        Bind.bind, Except.bind]
    | vInt n => simp [genCompareMember, hmem, hlt, comparePredFmtFor,
        Bind.bind, Except.bind]
    | vStr s => simp [genCompareMember, hmem, hlt, comparePredFmtFor,
        Bind.bind, Except.bind]
  · intro hlt v hd hl
    cases v with
    | vDict d => exact absurd rfl hd
    | vList l => exact absurd rfl hl
    | vBool b => simp [genCompareMember, hmem, hlt, comparePredFmtFor,
        Bind.bind, Except.bind]
    | vInt n => simp [genCompareMember, hmem, hlt, comparePredFmtFor,
        Bind.bind, Except.bind]
    | vStr s => simp [genCompareMember, hmem, hlt, comparePredFmtFor,
        Bind.bind, Except.bind]
  · intro hlt v hd hl
    have hcp : comparePredFmtFor sd.name member mdef.limittype = .ok (.fmtStr .eqF) := by
      rcases hlt with h | h | h <;> simp [comparePredFmtFor, h]
    have hne : mdef.limittype ≠ some "IGNORE" := by
      rcases hlt with h | h | h <;> simp [h]
    cases v with
    | vDict d => exact absurd rfl hd
    | vList l => exact absurd rfl hl
    | vBool b => simp [genCompareMember, hmem, hcp, hne, Bind.bind, Except.bind]
    | vInt n => simp [genCompareMember, hmem, hcp, hne, Bind.bind, Except.bind]
    | vStr s => simp [genCompareMember, hmem, hcp, hne, Bind.bind, Except.bind]
  · intro l hlt hl v
    simp only [List.mem_cons, List.not_mem_nil, or_false] at hl
    push_neg at hl
    obtain ⟨h1, h2, h3, h4, h5, h6, h7⟩ := hl
    have hcp : comparePredFmtFor sd.name member (some l)
        = .error (.fatal ("Unsupported limittype in member '" ++ member
            ++ "' of structure '" ++ sd.name ++ "'")) := by
      simp [comparePredFmtFor, h1, h2, h3, h4, h5, h6]
    simp [genCompareMember, hmem, hlt, h7, hcp, Bind.bind, Except.bind]
  · intro hlt harr x y
    have e0 : (dvar ++ member ++ "[" ++ toString (0 : Nat) ++ "]")
        = dvar ++ member ++ "[0]" := by
      apply String.ext; simp only [String.data_append, List.append_assoc]; rfl
    have e1 : (pvar ++ member ++ "[" ++ toString (0 : Nat) ++ "]")
        = pvar ++ member ++ "[0]" := by
      apply String.ext; simp only [String.data_append, List.append_assoc]; rfl
    have e2 : (dvar ++ member ++ "[" ++ toString (1 : Nat) ++ "]")
        = dvar ++ member ++ "[1]" := by
      apply String.ext; simp only [String.data_append, List.append_assoc]; rfl
    have e3 : (pvar ++ member ++ "[" ++ toString (1 : Nat) ++ "]")
        = pvar ++ member ++ "[1]" := by
      apply String.ext; simp only [String.data_append, List.append_assoc]; rfl
    simp [genCompareMember, hmem, hlt, harr, comparePredFmtFor, exceptMapList,
      Bind.bind, Except.bind, fmtApply, e0, e1, e2, e3]
  · intro vd inner cpf hne hcp hreg
    simp [genCompareMember, hmem, hne, hcp, hreg, Bind.bind, Except.bind]
  · intro xs f harr hsf
    obtain ⟨hcp, hne, hnr⟩ := singleFormOf_spec sd.name member mdef.limittype f hsf
    simp only [genCompareMember, hmem, hne, hcp, harr, Bind.bind, Except.bind]
    rw [exceptMapList_ok _ (fun i =>
      fmtApply fmt (applyPredForm f
        (dvar ++ member ++ "[" ++ toString i ++ "]")
        (pvar ++ member ++ "[" ++ toString i ++ "]")))]
    · simp
    · intro i _
      simp [hnr]
  · intro v rest
    simp only [gen_compareStructVar]
    cases h1 : genCompareMember regs fmt sd dvar pvar member v with
    | error e => simp [Bind.bind, Except.bind]
    | ok g1 =>
      cases h2 : gen_compareStructVar regs fmt sd dvar pvar rest with
      | error e => simp [Bind.bind, Except.bind, Except.map]
      | ok g2 => simp [Bind.bind, Except.bind, Except.map]

/-- Witness for C1 at the spec's synthetic struct: a `bitmask` member and a
two-element `range` array member emit exactly the table's predicates. -/
theorem c1_compare_predicate_mapping_witness :
    genCompareMember [] ("    ret = ret && ", ";\n") synthStruct "d." "p."
        "mBitmask" (.vInt 1)
      = .ok ["    ret = ret && ((d.mBitmask & p.mBitmask) == p.mBitmask);\n"]
    ∧ genCompareMember [] ("    ret = ret && ", ";\n") synthStruct "d." "p."
        "mRange" (.vList [.vInt 1, .vInt 64])
      = .ok ["    ret = ret && (d.mRange[0] <= p.mRange[0]);\n",
             "    ret = ret && (d.mRange[1] >= p.mRange[1]);\n"] := by
  constructor
  · have h := (c1_compare_predicate_mapping [] ("    ret = ret && ", ";\n")
      synthStruct "d." "p." "mBitmask"
      ⟨"mBitmask", "VkFlags", some "bitmask", false⟩
      (by decide)).2.1 rfl (.vInt 1) (by simp [Value.ty]) (by simp [Value.ty])
    rw [h]; simp [fmtApply, applyPredForm]
  · have h := (c1_compare_predicate_mapping [] ("    ret = ret && ", ";\n")
      synthStruct "d." "p." "mRange"
      ⟨"mRange", "float", some "range", true⟩
      (by decide)).2.2.2.2.2.2.1 rfl rfl (.vInt 1) (.vInt 64)
    rw [h]; simp [fmtApply, applyPredForm]

/-! ## Claim C3: struct-dependency validation -/

theorem validateStructDependency_ok_iff (registry : VulkanRegistry)
    (pn av : String) (exts : Dict Int) (n : String) :
    validateStructDependency registry pn av exts n = .ok ()
      ↔ structDepSatisfied registry av exts n := by
  unfold validateStructDependency structDepSatisfied
  cases hs : dget registry.structs n with
  | none => simp
  | some sd =>
    simp only []
    constructor
    · intro h
      by_cases hc :
          ((match sd.definedByVersion with
            | some v => pyStrLe v av
            | none => false)
           || sd.definedByExtensions.any (fun e => dmem exts e)) = true
      · refine ⟨sd, rfl, ?_⟩
        rcases (show (match sd.definedByVersion with
            | some v => pyStrLe v av
            | none => false) = true
            ∨ ∃ x ∈ sd.definedByExtensions, dmem exts x = true by
          simpa using hc) with hv | he
        · left
          cases hdv : sd.definedByVersion with
          | none => rw [hdv] at hv; exact absurd hv (by simp)
          | some v => exact ⟨v, rfl, by rw [hdv] at hv; exact hv⟩
        · right
          exact he
      · rw [if_neg hc] at h
        exact absurd h (by simp)
    · rintro ⟨sd', hsd', hdep⟩
      have hsd : sd' = sd := (Option.some.inj hsd').symm
      subst hsd
      have hc :
          ((match sd'.definedByVersion with
            | some v => pyStrLe v av
            | none => false)
           || sd'.definedByExtensions.any (fun e => dmem exts e)) = true := by
        rcases hdep with ⟨v, hv, hle⟩ | ⟨e, he, hm⟩
        · have hm1 : (match sd'.definedByVersion with
              | some v => pyStrLe v av
              | none => false) = true := by rw [hv]; exact hle
          simp [hm1]
        · have hm2 : sd'.definedByExtensions.any (fun e => dmem exts e) = true :=
            List.any_eq_true.mpr ⟨e, he, hm⟩
          simp [hm2]
      rw [if_pos hc]

theorem validateStructDependency_error_fatal (registry : VulkanRegistry)
    (pn av : String) (exts : Dict Int) (n : String) :
    validateStructDependency registry pn av exts n = .ok ()
      ∨ ∃ m, validateStructDependency registry pn av exts n = .error (.fatal m) := by
  unfold validateStructDependency
  cases hs : dget registry.structs n with
  | none => exact Or.inr ⟨_, rfl⟩
  | some sd =>
    simp only []
    by_cases hc :
        ((match sd.definedByVersion with
          | some v => pyStrLe v av
          | none => false)
         || sd.definedByExtensions.any (fun e => dmem exts e)) = true
    · rw [if_pos hc]; exact Or.inl rfl
    · rw [if_neg hc]; exact Or.inr ⟨_, rfl⟩

theorem exceptForList_ok_iff {α : Type} (f : α → Except PyErr Unit) :
    ∀ l : List α, (exceptForList f l = .ok ()) ↔ ∀ x ∈ l, f x = .ok () := by
  intro l
  induction l with
  | nil => simp [exceptForList]
  | cons a t ih =>
    rw [show exceptForList f (a :: t) = f a >>= fun _ => exceptForList f t from rfl]
    constructor
    · intro h
      cases hfa : f a with
      | error e => rw [hfa] at h; exact absurd h (by simp [Bind.bind, Except.bind])
      | ok u =>
        cases u
        rw [hfa] at h
        simp only [Bind.bind, Except.bind] at h
        intro x hx
        rcases List.mem_cons.mp hx with hx | hx
        · subst hx; exact hfa
        · exact (ih.mp h) x hx
    · intro h
      rw [h a (by simp)]
      simp only [Bind.bind, Except.bind]
      exact ih.mpr (fun x hx => h x (by simp [hx]))

theorem exceptForList_error_fatal {α : Type} (f : α → Except PyErr Unit)
    (hf : ∀ x, f x = .ok () ∨ ∃ m, f x = .error (.fatal m)) :
    ∀ l : List α, (exceptForList f l = .ok ())
      ∨ ∃ m, exceptForList f l = .error (.fatal m) := by
  intro l
  induction l with
  | nil => exact Or.inl rfl
  | cons a t ih =>
    rw [show exceptForList f (a :: t) = f a >>= fun _ => exceptForList f t from rfl]
    rcases hf a with ha | ⟨m, ha⟩
    · rw [ha]
      simpa [Bind.bind, Except.bind] using ih
    · rw [ha]
      exact Or.inr ⟨m, by simp [Bind.bind, Except.bind]⟩

/-- **C3**: (1) for every profile that resolves successfully, every struct
name in its merged features, properties, queue-family records and memory
properties satisfies the dependency condition: the struct is registered and
either its `definedByVersion` compares `<=` the profile's api-version
(Python string comparison) or one of its `definedByExtensions` is in the
merged extension set; (2) the validation pass succeeds exactly when every
referenced struct satisfies that condition; (3) a violating profile fails
with a fatal (`Log.f`) error — the `ProfileDependency` error kind. -/
theorem c3_struct_dependency_validation :
    (∀ (registry : VulkanRegistry) (name : String) (data : ProfileData)
       (capsPool : Dict Fragment) (prof : VulkanProfile),
      mkVulkanProfile registry name data capsPool = .ok prof →
      ∀ n ∈ validatedStructNames prof.capabilities,
        structDepSatisfied registry prof.apiVersion prof.capabilities.extensions n)
    ∧ (∀ (registry : VulkanRegistry) (pn av : String)
         (caps : VulkanProfileCapabilities),
        validateStructDependencies registry pn av caps = .ok ()
          ↔ ∀ n ∈ validatedStructNames caps,
              structDepSatisfied registry av caps.extensions n)
    ∧ (∀ (registry : VulkanRegistry) (pn av : String)
         (caps : VulkanProfileCapabilities),
        ¬ (∀ n ∈ validatedStructNames caps,
            structDepSatisfied registry av caps.extensions n) →
        ∃ m, validateStructDependencies registry pn av caps
          = .error (.fatal m)) := by
  have hiff : ∀ (registry : VulkanRegistry) (pn av : String)
      (caps : VulkanProfileCapabilities),
      validateStructDependencies registry pn av caps = .ok ()
        ↔ ∀ n ∈ validatedStructNames caps,
            structDepSatisfied registry av caps.extensions n := by
    intro registry pn av caps
    unfold validateStructDependencies
    rw [exceptForList_ok_iff]
    constructor
    · intro h n hn
      exact (validateStructDependency_ok_iff registry pn av caps.extensions n).mp
        (h n hn)
    · intro h n hn
      exact (validateStructDependency_ok_iff registry pn av caps.extensions n).mpr
        (h n hn)
  refine ⟨?_, hiff, ?_⟩
  · intro registry name data capsPool prof hmk n hn
    unfold mkVulkanProfile at hmk
    cases hcaps : mkVulkanProfileCapabilities registry data.capabilities capsPool with
    | error e => rw [hcaps] at hmk; exact absurd hmk (by simp [Bind.bind, Except.bind])
    | ok c =>
      rw [hcaps] at hmk
      simp only [Bind.bind, Except.bind] at hmk
      cases hreq : collectCompileTimeRequirements registry name data.apiVersion
          c.extensions with
      | error e => rw [hreq] at hmk; exact absurd hmk (by simp)
      | ok reqs =>
        rw [hreq] at hmk
        simp only [] at hmk
        cases hval : validateStructDependencies registry name data.apiVersion c with
        | error e => rw [hval] at hmk; exact absurd hmk (by simp)
        | ok u =>
          cases u
          rw [hval] at hmk
          simp only [] at hmk
          cases hmk
          simp only []
          exact (hiff registry name data.apiVersion c).mp hval n hn
  · intro registry pn av caps hviol
    rcases exceptForList_error_fatal
        (validateStructDependency registry pn av caps.extensions)
        (fun x => validateStructDependency_error_fatal registry pn av
          caps.extensions x)
        (validatedStructNames caps) with h | h
    · exact absurd ((hiff registry pn av caps).mp
        (by unfold validateStructDependencies; exact h)) hviol
    · exact ⟨h.choose, by unfold validateStructDependencies; exact h.choose_spec⟩


/-- Witness for C3: at a concrete registry and capabilities the validation
pass succeeds and yields the dependency condition for `VkFoo`. -/
theorem c3_struct_dependency_validation_witness :
    structDepSatisfied c3Registry "1.0.0" c3Caps.extensions "VkFoo" :=
  (c3_struct_dependency_validation.2.1 c3Registry "VP_TEST" "1.0.0" c3Caps).mp
    (by rfl) "VkFoo" (by decide)

/-! ## Claim C5: duplicate profile names across files -/

/-- **C5, counterexample**: two profile files both defining `VP_DUP` load
without any error, and the returned map holds the second file's definition
(spec version 2): the loader silently replaces the first definition instead
of failing. -/
theorem c5_duplicate_profile_silently_overwritten :
    (loadFromDir c5Registry [c5File1, c5File2]).isOk = true
    ∧ ((loadFromDir c5Registry [c5File1, c5File2]).toOption.bind
        (fun m => (dget m "VP_DUP").map (fun p => p.version))) = some 2 := by
  constructor <;> rfl

theorem findLastEntry_foldl {b : Type} (nm : String) :
    ∀ (es : List (String × b)) (init : Option b),
      es.foldl (fun acc e => if e.1 = nm then some e.2 else acc) init
        = match findLastEntry es nm with
          | some r => some r
          | none => init
  | [], init => rfl
  | (k, v) :: es, init => by
    simp only [findLastEntry, List.foldl_cons]
    rw [findLastEntry_foldl nm es (if k = nm then some v else init),
      findLastEntry_foldl nm es (if k = nm then some v else none)]
    cases h : (findLastEntry es nm) with
    | some r => simp
    | none => by_cases hk : k = nm <;> simp [hk]

theorem processEntries_last {registry : VulkanRegistry} :
    ∀ (es : List (String × ProfileData × Dict Fragment))
      (acc m : Dict VulkanProfile),
      processEntries registry acc es = .ok m →
      ∀ nm : String,
        (match findLastEntry es nm with
         | some (data, pool) =>
           ∃ p, dget m nm = some p ∧ mkVulkanProfile registry nm data pool = .ok p
         | none => dget m nm = dget acc nm)
  | [], acc, m, h, nm => by
    simp only [processEntries] at h
    cases h
    rfl
  | (n0, d0, pool0) :: rest, acc, m, h, nm => by
    simp only [processEntries] at h
    cases hmk : mkVulkanProfile registry n0 d0 pool0 with
    | error e =>
      rw [hmk] at h
      exact absurd h (by simp [Bind.bind, Except.bind])
    | ok p0 =>
      rw [hmk] at h
      simp only [Bind.bind, Except.bind] at h
      have ih := processEntries_last rest (dset acc n0 p0) m h nm
      have hfl : findLastEntry ((n0, (d0, pool0)) :: rest) nm
          = match findLastEntry rest nm with
            | some r => some r
            | none => if n0 = nm then some (d0, pool0) else none := by
        rw [show findLastEntry ((n0, (d0, pool0)) :: rest) nm
            = rest.foldl (fun acc e => if e.1 = nm then some e.2 else acc)
                (if n0 = nm then some (d0, pool0) else none) from rfl,
          findLastEntry_foldl nm rest (if n0 = nm then some (d0, pool0) else none)]
        cases findLastEntry rest nm <;> rfl
      rw [hfl]
      cases hrest : findLastEntry rest nm with
      | some r =>
        rw [hrest] at ih
        exact ih
      | none =>
        rw [hrest] at ih
        rw [ih, dget_dset]
        by_cases hn : n0 = nm
        · subst hn
          simp only [if_pos rfl]
          exact ⟨p0, rfl, hmk⟩
        · simp only [if_neg hn]

theorem loadFromDir_eq_processEntries (registry : VulkanRegistry) :
    ∀ (files : List (Dict ProfileData × Dict Fragment))
      (acc : Dict VulkanProfile),
      files.foldlM (fun profiles f => parseProfiles registry profiles f.1 f.2) acc
        = processEntries registry acc (profileEntries files) := by
  have hparse : ∀ (json : Dict ProfileData) (caps : Dict Fragment)
      (acc : Dict VulkanProfile),
      parseProfiles registry acc json caps
        = processEntries registry acc (json.map (fun p => (p.1, p.2, caps))) := by
    intro json
    induction json with
    | nil => intro caps acc; rfl
    | cons e rest ih =>
      intro caps acc
      obtain ⟨nm, data⟩ := e
      simp only [parseProfiles, List.foldlM_cons, List.map_cons, processEntries]
      cases hmk : mkVulkanProfile registry nm data caps with
      | error er => simp [Bind.bind, Except.bind]
      | ok p =>
        simp only [Bind.bind, Except.bind]
        exact ih caps (dset acc nm p)
  have happ : ∀ (es1 es2 : List (String × ProfileData × Dict Fragment))
      (acc : Dict VulkanProfile),
      processEntries registry acc (es1 ++ es2)
        = (processEntries registry acc es1).bind
            (fun m => processEntries registry m es2) := by
    intro es1
    induction es1 with
    | nil => intro es2 acc; rfl
    | cons e rest ih =>
      intro es2 acc
      obtain ⟨nm, data, pool⟩ := e
      simp only [List.cons_append, processEntries]
      cases hmk : mkVulkanProfile registry nm data pool with
      | error er => simp [Bind.bind, Except.bind]
      | ok p =>
        simp only [Bind.bind, Except.bind]
        exact ih es2 (dset acc nm p)
  intro files
  induction files with
  | nil => intro acc; rfl
  | cons f rest ih =>
    intro acc
    simp only [List.foldlM_cons, profileEntries, List.flatMap_cons]
    rw [happ]
    rw [hparse f.1 f.2 acc]
    cases hp : processEntries registry acc (f.1.map (fun p => (p.1, p.2, f.2))) with
    | error er => simp [Bind.bind, Except.bind]
    | ok m =>
      simp only [Bind.bind, Except.bind, Except.bind]
      exact ih m

/-- **C5, amended**: duplicate profile names across files are *not* an
error: every entry is registered by plain dictionary assignment, so the
loader silently returns the union in which the last-processed file's
definition of each duplicated name replaces the earlier ones. -/
theorem c5_last_registration_wins (registry : VulkanRegistry)
    (files : List (Dict ProfileData × Dict Fragment))
    (m : Dict VulkanProfile) (h : loadFromDir registry files = .ok m)
    (nm : String) :
    (match findLastEntry (profileEntries files) nm with
     | some (data, pool) =>
       ∃ p, dget m nm = some p ∧ mkVulkanProfile registry nm data pool = .ok p
     | none => dget m nm = none) := by
  unfold loadFromDir at h
  rw [loadFromDir_eq_processEntries registry files []] at h
  have := processEntries_last (profileEntries files) [] m h nm
  cases hfl : findLastEntry (profileEntries files) nm with
  | some r =>
    rw [hfl] at this
    exact this
  | none =>
    rw [hfl] at this
    simpa using this

/-- Witness for the amended C5 at the two concrete duplicate files: the
surviving profile is the one built from the second file's definition. -/
theorem c5_last_registration_wins_witness :
    ∃ p, dget
        ((loadFromDir c5Registry [c5File1, c5File2]).toOption.getD []) "VP_DUP"
        = some p
      ∧ mkVulkanProfile c5Registry "VP_DUP" ⟨2, "1.0.0", none, []⟩ [] = .ok p := by
  have h := c5_last_registration_wins c5Registry [c5File1, c5File2]
    ((loadFromDir c5Registry [c5File1, c5File2]).toOption.getD []) (by rfl) "VP_DUP"
  simpa [show findLastEntry (profileEntries [c5File1, c5File2]) "VP_DUP"
      = some (⟨2, "1.0.0", none, []⟩, []) from rfl] using h

/-! ## Claim C7: extension classification totality -/

theorem dget_mem {α : Type} :
    ∀ (d : Dict α) (k : String) (v : α), dget d k = some v → (k, v) ∈ d
  | [], _, _, h => by simp [dget] at h
  | (k', v') :: t, k, v, h => by
    by_cases hk : k' = k
    · subst hk
      simp only [dget_cons, if_pos rfl] at h
      cases h
      simp
    · simp only [dget_cons, if_neg hk] at h
      exact List.mem_cons_of_mem _ (dget_mem t k v h)

theorem extInv_empty (registry : VulkanRegistry) :
    extInvariant registry {} := by
  intro e
  refine ⟨?_, ?_, ?_⟩ <;> intro h <;> simp [dmem, dget] at h

theorem extInv_of_fields_eq (registry : VulkanRegistry)
    (caps caps' : VulkanProfileCapabilities)
    (hinv : extInvariant registry caps)
    (h1 : caps'.extensions = caps.extensions)
    (h2 : caps'.instanceExtensions = caps.instanceExtensions)
    (h3 : caps'.deviceExtensions = caps.deviceExtensions) :
    extInvariant registry caps' := by
  intro e
  rw [h1, h2, h3]
  exact hinv e

theorem mergeExtStep_none (registry : VulkanRegistry)
    (caps : VulkanProfileCapabilities) (e : String) (sv : Int)
    (hreg : dget registry.extensions e = none) :
    mergeExtStep registry caps (e, sv)
      = .error (.fatal ("Extension '" ++ e ++ "' does not exist")) := by
  simp only [mergeExtStep]
  rw [hreg]

theorem mergeExtStep_instance (registry : VulkanRegistry)
    (caps : VulkanProfileCapabilities) (e : String) (sv : Int)
    (ei : VulkanExtension) (hreg : dget registry.extensions e = some ei)
    (hi : ei.type = some "instance") :
    mergeExtStep registry caps (e, sv)
      = .ok { caps with
              extensions := dset caps.extensions e sv
              instanceExtensions := dset caps.instanceExtensions e sv } := by
  simp only [mergeExtStep]
  rw [hreg]
  simp [hi]

theorem mergeExtStep_device (registry : VulkanRegistry)
    (caps : VulkanProfileCapabilities) (e : String) (sv : Int)
    (ei : VulkanExtension) (hreg : dget registry.extensions e = some ei)
    (hd : ei.type = some "device") :
    mergeExtStep registry caps (e, sv)
      = .ok { caps with
              extensions := dset caps.extensions e sv
              deviceExtensions := dset caps.deviceExtensions e sv } := by
  simp only [mergeExtStep]
  rw [hreg]
  simp [hd]

theorem mergeExtStep_invalid (registry : VulkanRegistry)
    (caps : VulkanProfileCapabilities) (e : String) (sv : Int)
    (ei : VulkanExtension) (hreg : dget registry.extensions e = some ei)
    (hni : ¬ ei.type = some "instance") (hnd : ¬ ei.type = some "device") :
    mergeExtStep registry caps (e, sv)
      = .error (.fatal ("Extension '" ++ e ++ "' has invalid type")) := by
  simp only [mergeExtStep]
  rw [hreg]
  simp [hni, hnd]

theorem extInv_mergeExtStep (registry : VulkanRegistry)
    (caps c1 : VulkanProfileCapabilities) (e0 : String) (sv0 : Int)
    (hinv : extInvariant registry caps)
    (hs : mergeExtStep registry caps (e0, sv0) = .ok c1) :
    extInvariant registry c1 := by
  cases hreg : dget registry.extensions e0 with
  | none =>
    rw [mergeExtStep_none registry caps e0 sv0 hreg] at hs
    cases hs
  | some ei =>
    by_cases hi : ei.type = some "instance"
    · rw [mergeExtStep_instance registry caps e0 sv0 ei hreg hi] at hs
      cases hs
      intro e
      by_cases he : e0 = e
      · subst he
        refine ⟨?_, ?_, ?_⟩
        · intro _
          exact ⟨ei, hreg, hi, by simp [dmem_dset]⟩
        · intro hd
          simp only [] at hd
          obtain ⟨ei', hr', ht', _⟩ := (hinv e0).2.1 hd
          exact ⟨ei', hr', ht', by simp [dmem_dset]⟩
        · intro _
          left
          simp [dmem_dset]
      · refine ⟨?_, ?_, ?_⟩
        · intro hins
          simp only [dmem_dset, if_neg he] at hins
          obtain ⟨ei', hr', ht', hm'⟩ := (hinv e).1 hins
          exact ⟨ei', hr', ht', by simp [dmem_dset, if_neg he, hm']⟩
        · intro hd
          simp only [] at hd
          obtain ⟨ei', hr', ht', hm'⟩ := (hinv e).2.1 hd
          exact ⟨ei', hr', ht', by simp [dmem_dset, if_neg he, hm']⟩
        · intro hm
          simp only [dmem_dset, if_neg he] at hm
          rcases (hinv e).2.2 hm with hl | hr
          · left; simp [dmem_dset, if_neg he, hl]
          · right; exact hr
    · by_cases hd : ei.type = some "device"
      · rw [mergeExtStep_device registry caps e0 sv0 ei hreg hd] at hs
        cases hs
        intro e
        by_cases he : e0 = e
        · subst he
          refine ⟨?_, ?_, ?_⟩
          · intro hins
            simp only [] at hins
            obtain ⟨ei', hr', ht', _⟩ := (hinv e0).1 hins
            exact ⟨ei', hr', ht', by simp [dmem_dset]⟩
          · intro _
            exact ⟨ei, hreg, hd, by simp [dmem_dset]⟩
          · intro _
            right
            simp [dmem_dset]
        · refine ⟨?_, ?_, ?_⟩
          · intro hins
            simp only [] at hins
            obtain ⟨ei', hr', ht', hm'⟩ := (hinv e).1 hins
            exact ⟨ei', hr', ht', by simp [dmem_dset, if_neg he, hm']⟩
          · intro hdm
            simp only [dmem_dset, if_neg he] at hdm
            obtain ⟨ei', hr', ht', hm'⟩ := (hinv e).2.1 hdm
            exact ⟨ei', hr', ht', by simp [dmem_dset, if_neg he, hm']⟩
          · intro hm
            simp only [dmem_dset, if_neg he] at hm
            rcases (hinv e).2.2 hm with hl | hr
            · left; exact hl
            · right; simp [dmem_dset, if_neg he, hr]
      · rw [mergeExtStep_invalid registry caps e0 sv0 ei hreg hi hd] at hs
        cases hs

theorem extInv_mergeProfileExtensions (registry : VulkanRegistry) :
    ∀ (exts : Dict Int) (caps caps' : VulkanProfileCapabilities),
      extInvariant registry caps →
      exts.foldlM (mergeExtStep registry) caps = Except.ok caps' →
      extInvariant registry caps'
  | [], caps, caps', hinv, h => by
    cases h
    exact hinv
  | (e0, sv0) :: rest, caps, caps', hinv, h => by
    rw [List.foldlM_cons] at h
    cases hs : mergeExtStep registry caps (e0, sv0) with
    | error er =>
      rw [hs] at h
      exact absurd h (by simp [Bind.bind, Except.bind])
    | ok c1 =>
      rw [hs] at h
      simp only [Bind.bind, Except.bind] at h
      exact extInv_mergeProfileExtensions registry rest c1 caps'
        (extInv_mergeExtStep registry caps c1 e0 sv0 hinv hs) h

theorem mergeProfileFeatures_fields (caps caps' : VulkanProfileCapabilities)
    (frag : Fragment) (h : mergeProfileFeatures caps frag = .ok caps') :
    caps'.extensions = caps.extensions
      ∧ caps'.instanceExtensions = caps.instanceExtensions
      ∧ caps'.deviceExtensions = caps.deviceExtensions := by
  unfold mergeProfileFeatures at h
  cases hf : frag.features with
  | none => rw [hf] at h; cases h; exact ⟨rfl, rfl, rfl⟩
  | some f =>
    rw [hf] at h
    simp only [Bind.bind, Except.bind] at h
    cases hm : mergeItems caps.features f with
    | error e => rw [hm] at h; exact absurd h (by simp)
    | ok m => rw [hm] at h; cases h; exact ⟨rfl, rfl, rfl⟩

theorem mergeProfileProperties_fields (caps caps' : VulkanProfileCapabilities)
    (frag : Fragment) (h : mergeProfileProperties caps frag = .ok caps') :
    caps'.extensions = caps.extensions
      ∧ caps'.instanceExtensions = caps.instanceExtensions
      ∧ caps'.deviceExtensions = caps.deviceExtensions := by
  unfold mergeProfileProperties at h
  cases hf : frag.properties with
  | none => rw [hf] at h; cases h; exact ⟨rfl, rfl, rfl⟩
  | some f =>
    rw [hf] at h
    simp only [Bind.bind, Except.bind] at h
    cases hm : mergeItems caps.properties f with
    | error e => rw [hm] at h; exact absurd h (by simp)
    | ok m => rw [hm] at h; cases h; exact ⟨rfl, rfl, rfl⟩

theorem mergeProfileFormats_fields (caps caps' : VulkanProfileCapabilities)
    (frag : Fragment) (h : mergeProfileFormats caps frag = .ok caps') :
    caps'.extensions = caps.extensions
      ∧ caps'.instanceExtensions = caps.instanceExtensions
      ∧ caps'.deviceExtensions = caps.deviceExtensions := by
  unfold mergeProfileFormats at h
  cases hf : frag.formats with
  | none => rw [hf] at h; cases h; exact ⟨rfl, rfl, rfl⟩
  | some f =>
    rw [hf] at h
    simp only [Bind.bind, Except.bind] at h
    cases hm : mergeItems caps.formats f with
    | error e => rw [hm] at h; exact absurd h (by simp)
    | ok m => rw [hm] at h; cases h; exact ⟨rfl, rfl, rfl⟩

theorem mergeProfileMemoryProperties_fields
    (caps caps' : VulkanProfileCapabilities) (frag : Fragment)
    (h : mergeProfileMemoryProperties caps frag = .ok caps') :
    caps'.extensions = caps.extensions
      ∧ caps'.instanceExtensions = caps.instanceExtensions
      ∧ caps'.deviceExtensions = caps.deviceExtensions := by
  unfold mergeProfileMemoryProperties at h
  cases hf : frag.memoryProperties with
  | none => rw [hf] at h; cases h; exact ⟨rfl, rfl, rfl⟩
  | some f =>
    rw [hf] at h
    simp only [Bind.bind, Except.bind] at h
    cases hm : mergeItems caps.memoryProperties f with
    | error e => rw [hm] at h; exact absurd h (by simp)
    | ok m => rw [hm] at h; cases h; exact ⟨rfl, rfl, rfl⟩

theorem extInv_mergeCaps (registry : VulkanRegistry)
    (caps caps' : VulkanProfileCapabilities) (frag : Fragment)
    (hinv : extInvariant registry caps)
    (h : mergeCaps registry caps frag = .ok caps') :
    extInvariant registry caps' := by
  unfold mergeCaps at h
  cases h1 : mergeProfileExtensions registry caps frag with
  | error e => rw [h1] at h; exact absurd h (by simp [Bind.bind, Except.bind])
  | ok c1 =>
    rw [h1] at h
    simp only [Bind.bind, Except.bind] at h
    have hinv1 : extInvariant registry c1 := by
      cases hfe : frag.extensions with
      | none =>
        have heq : mergeProfileExtensions registry caps frag = .ok caps := by
          unfold mergeProfileExtensions
          rw [hfe]
        rw [heq] at h1
        cases h1
        exact hinv
      | some exts =>
        have heq : mergeProfileExtensions registry caps frag
            = exts.foldlM (mergeExtStep registry) caps := by
          unfold mergeProfileExtensions
          rw [hfe]
        rw [heq] at h1
        exact extInv_mergeProfileExtensions registry exts caps c1 hinv h1
    cases h2 : mergeProfileFeatures c1 frag with
    | error e => rw [h2] at h; exact absurd h (by simp)
    | ok c2 =>
      rw [h2] at h
      simp only [] at h
      obtain ⟨f1, f2, f3⟩ := mergeProfileFeatures_fields c1 c2 frag h2
      have hinv2 : extInvariant registry c2 :=
        extInv_of_fields_eq registry c1 c2 hinv1 f1 f2 f3
      cases h3 : mergeProfileProperties c2 frag with
      | error e => rw [h3] at h; exact absurd h (by simp)
      | ok c3 =>
        rw [h3] at h
        simp only [] at h
        obtain ⟨g1, g2, g3⟩ := mergeProfileProperties_fields c2 c3 frag h3
        have hinv3 : extInvariant registry c3 :=
          extInv_of_fields_eq registry c2 c3 hinv2 g1 g2 g3
        cases h4 : mergeProfileFormats c3 frag with
        | error e => rw [h4] at h; exact absurd h (by simp)
        | ok c4 =>
          rw [h4] at h
          simp only [] at h
          obtain ⟨k1, k2, k3⟩ := mergeProfileFormats_fields c3 c4 frag h4
          have hinv4 : extInvariant registry c4 :=
            extInv_of_fields_eq registry c3 c4 hinv3 k1 k2 k3
          have hinv5 : extInvariant registry
              (mergeProfileQueueFamiliesProperties c4 frag) := by
            refine extInv_of_fields_eq registry c4 _ hinv4 ?_ ?_ ?_ <;>
              (unfold mergeProfileQueueFamiliesProperties;
               cases frag.queueFamiliesProperties <;> rfl)
          obtain ⟨m1, m2, m3⟩ :=
            mergeProfileMemoryProperties_fields
              (mergeProfileQueueFamiliesProperties c4 frag) caps' frag h
          exact extInv_of_fields_eq registry _ caps' hinv5 m1 m2 m3

theorem extInv_mkCaps (registry : VulkanRegistry) :
    ∀ (capNames : List String) (capsPool : Dict Fragment)
      (caps caps' : VulkanProfileCapabilities),
      extInvariant registry caps →
      (capNames.foldlM
        (fun caps capName =>
          match dget capsPool capName with
          | some frag => mergeCaps registry caps frag
          | none => Except.error (.keyError "name")) caps) = Except.ok caps' →
      extInvariant registry caps'
  | [], _, caps, caps', hinv, h => by cases h; exact hinv
  | cn :: rest, capsPool, caps, caps', hinv, h => by
    rw [List.foldlM_cons] at h
    cases hp : dget capsPool cn with
    | none => rw [hp] at h; exact absurd h (by simp [Bind.bind, Except.bind])
    | some frag =>
      rw [hp] at h
      simp only [Bind.bind, Except.bind] at h
      cases hm : mergeCaps registry caps frag with
      | error e => rw [hm] at h; exact absurd h (by simp)
      | ok c1 =>
        rw [hm] at h
        simp only [] at h
        exact extInv_mkCaps registry rest capsPool c1 caps'
          (extInv_mergeCaps registry caps c1 frag hinv hm) h

/-- **C7**: (1) in every successfully resolved profile, each merged
extension is classified by the registry's kind into exactly one of the
instance-extension and device-extension maps; (2) on success every declared
extension exists in the registry with kind `instance` or `device`; (3) an
extension absent from the registry, or of any other kind, makes the merge
fail with a fatal (`Log.f`) error. -/
theorem c7_extension_classification :
    (∀ (registry : VulkanRegistry) (name : String) (data : ProfileData)
       (capsPool : Dict Fragment) (prof : VulkanProfile),
      mkVulkanProfile registry name data capsPool = .ok prof →
      ∀ e, dmem prof.capabilities.extensions e = true →
      ∃ ei, dget registry.extensions e = some ei ∧
        ((ei.type = some "instance"
            ∧ dmem prof.capabilities.instanceExtensions e = true
            ∧ dmem prof.capabilities.deviceExtensions e = false)
         ∨ (ei.type = some "device"
            ∧ dmem prof.capabilities.deviceExtensions e = true
            ∧ dmem prof.capabilities.instanceExtensions e = false)))
    ∧ (∀ (registry : VulkanRegistry) (caps caps' : VulkanProfileCapabilities)
         (frag : Fragment) (exts : Dict Int),
        mergeProfileExtensions registry caps frag = .ok caps' →
        frag.extensions = some exts →
        ∀ e sv, (e, sv) ∈ exts →
        ∃ ei, dget registry.extensions e = some ei
          ∧ (ei.type = some "instance" ∨ ei.type = some "device"))
    ∧ (∀ (registry : VulkanRegistry) (caps : VulkanProfileCapabilities)
         (frag : Fragment) (er : PyErr),
        mergeProfileExtensions registry caps frag = .error er →
        ∃ m, er = .fatal m) := by
  have hxor : ∀ (registry : VulkanRegistry) (caps : VulkanProfileCapabilities),
      extInvariant registry caps →
      ∀ e, dmem caps.extensions e = true →
      ∃ ei, dget registry.extensions e = some ei ∧
        ((ei.type = some "instance" ∧ dmem caps.instanceExtensions e = true
            ∧ dmem caps.deviceExtensions e = false)
         ∨ (ei.type = some "device" ∧ dmem caps.deviceExtensions e = true
            ∧ dmem caps.instanceExtensions e = false)) := by
    intro registry caps hinv e hm
    rcases (hinv e).2.2 hm with hi | hd
    · obtain ⟨ei, hr, ht, _⟩ := (hinv e).1 hi
      refine ⟨ei, hr, Or.inl ⟨ht, hi, ?_⟩⟩
      by_cases hdm : dmem caps.deviceExtensions e = true
      · obtain ⟨ei', hr', ht', _⟩ := (hinv e).2.1 hdm
        rw [hr] at hr'
        cases hr'
        rw [ht] at ht'
        exact absurd (Option.some.inj ht') (by decide)
      · exact Bool.not_eq_true _ |>.mp hdm
    · obtain ⟨ei, hr, ht, _⟩ := (hinv e).2.1 hd
      refine ⟨ei, hr, Or.inr ⟨ht, hd, ?_⟩⟩
      by_cases him : dmem caps.instanceExtensions e = true
      · obtain ⟨ei', hr', ht', _⟩ := (hinv e).1 him
        rw [hr] at hr'
        cases hr'
        rw [ht] at ht'
        exact absurd (Option.some.inj ht') (by decide)
      · exact Bool.not_eq_true _ |>.mp him
  refine ⟨?_, ?_, ?_⟩
  · intro registry name data capsPool prof hmk e hm
    unfold mkVulkanProfile at hmk
    cases hcaps : mkVulkanProfileCapabilities registry data.capabilities capsPool with
    | error er =>
      rw [hcaps] at hmk
      exact absurd hmk (by simp [Bind.bind, Except.bind])
    | ok c =>
      rw [hcaps] at hmk
      simp only [Bind.bind, Except.bind] at hmk
      have hic : extInvariant registry c := by
        unfold mkVulkanProfileCapabilities at hcaps
        exact extInv_mkCaps registry data.capabilities capsPool {} c
          (extInv_empty registry) hcaps
      have hpc : prof.capabilities = c := by
        cases hreq : collectCompileTimeRequirements registry name data.apiVersion
            c.extensions with
        | error er => rw [hreq] at hmk; exact absurd hmk (by simp)
        | ok reqs =>
          rw [hreq] at hmk
          simp only [] at hmk
          cases hval : validateStructDependencies registry name data.apiVersion c with
          | error er => rw [hval] at hmk; exact absurd hmk (by simp)
          | ok u =>
            cases u
            rw [hval] at hmk
            simp only [] at hmk
            cases hmk
            rfl
      rw [hpc] at hm ⊢
      exact hxor registry c hic e hm
  · intro registry caps caps' frag exts hok hfe e sv hmem
    have heq : mergeProfileExtensions registry caps frag
        = exts.foldlM (mergeExtStep registry) caps := by
      unfold mergeProfileExtensions
      rw [hfe]
    rw [heq] at hok
    clear hfe heq
    induction exts generalizing caps with
    | nil => cases hmem
    | cons p rest ih =>
      rw [List.foldlM_cons] at hok
      obtain ⟨e0, sv0⟩ := p
      cases hs : mergeExtStep registry caps (e0, sv0) with
      | error er =>
        rw [hs] at hok
        exact absurd hok (by simp [Bind.bind, Except.bind])
      | ok c1 =>
        rw [hs] at hok
        simp only [Bind.bind, Except.bind] at hok
        rcases List.mem_cons.mp hmem with hme | hme
        · cases hme
          cases hreg : dget registry.extensions e with
          | none =>
            rw [mergeExtStep_none registry caps e sv hreg] at hs
            cases hs
          | some ei =>
            refine ⟨ei, rfl, ?_⟩
            by_cases hi : ei.type = some "instance"
            · exact Or.inl hi
            · by_cases hd : ei.type = some "device"
              · exact Or.inr hd
              · rw [mergeExtStep_invalid registry caps e sv ei hreg hi hd] at hs
                cases hs
        · exact ih _ hok hme
  · intro registry caps frag er herr
    cases hfe : frag.extensions with
    | none =>
      have heq : mergeProfileExtensions registry caps frag = .ok caps := by
        unfold mergeProfileExtensions
        rw [hfe]
      rw [heq] at herr
      cases herr
    | some exts =>
      have heq : mergeProfileExtensions registry caps frag
          = exts.foldlM (mergeExtStep registry) caps := by
        unfold mergeProfileExtensions
        rw [hfe]
      rw [heq] at herr
      clear hfe heq
      induction exts generalizing caps with
      | nil => exact absurd herr (by simp [pure, Except.pure])
      | cons p rest ih =>
        rw [List.foldlM_cons] at herr
        obtain ⟨e0, sv0⟩ := p
        cases hs : mergeExtStep registry caps (e0, sv0) with
        | ok c1 =>
          rw [hs] at herr
          simp only [Bind.bind, Except.bind] at herr
          exact ih _ herr
        | error er0 =>
          rw [hs] at herr
          simp only [Bind.bind, Except.bind] at herr
          cases herr
          cases hreg : dget registry.extensions e0 with
          | none =>
            rw [mergeExtStep_none registry caps e0 sv0 hreg] at hs
            cases hs
            exact ⟨_, rfl⟩
          | some ei =>
            by_cases hi : ei.type = some "instance"
            · rw [mergeExtStep_instance registry caps e0 sv0 ei hreg hi] at hs
              cases hs
            · by_cases hd : ei.type = some "device"
              · rw [mergeExtStep_device registry caps e0 sv0 ei hreg hd] at hs
                cases hs
              · rw [mergeExtStep_invalid registry caps e0 sv0 ei hreg hi hd] at hs
                cases hs
                exact ⟨_, rfl⟩

/-- Witness for C7: a profile declaring `VK_KHR_swapchain` (a device
extension in the registry) resolves with the extension classified into the
device map only. -/
theorem c7_extension_classification_witness :
    ∃ ei, dget c7Registry.extensions "VK_KHR_swapchain" = some ei ∧
      ((ei.type = some "instance"
          ∧ dmem c7Profile.capabilities.instanceExtensions "VK_KHR_swapchain" = true
          ∧ dmem c7Profile.capabilities.deviceExtensions "VK_KHR_swapchain" = false)
       ∨ (ei.type = some "device"
          ∧ dmem c7Profile.capabilities.deviceExtensions "VK_KHR_swapchain" = true
          ∧ dmem c7Profile.capabilities.instanceExtensions "VK_KHR_swapchain" = false)) :=
  c7_extension_classification.1 c7Registry "VP_TEST" c7Data c7Pool c7Profile
    (by rfl) "VK_KHR_swapchain" (by rfl)

/-! ## Claim C9: idempotence of the workaround pass -/

theorem dget_map_keyed {α β : Type} (g : String → α → β) :
    ∀ (d : Dict α) (k : String),
      dget (d.map (fun p => (p.1, g p.1 p.2))) k = (dget d k).map (g k)
  | [], _ => rfl
  | (k₀, v₀) :: t, k => by
    by_cases h : k₀ = k
    · subst h
      simp [dget]
    · simp [dget, h, dget_map_keyed g t k]

theorem dmem_map_keyed {α β : Type} (g : String → α → β) (d : Dict α)
    (k : String) :
    dmem (d.map (fun p => (p.1, g p.1 p.2))) k = dmem d k := by
  simp only [dmem, dget_map_keyed]
  cases dget d k <;> rfl

theorem dkeys_map_keyed {α β : Type} (g : String → α → β) (d : Dict α) :
    dkeys (d.map (fun p => (p.1, g p.1 p.2))) = dkeys d := by
  simp [dkeys, List.map_map, Function.comp]

theorem map_keyed_id {α : Type} (g : String → α → α) (d : Dict α)
    (h : ∀ p ∈ d, g p.1 p.2 = p.2) :
    d.map (fun p => (p.1, g p.1 p.2)) = d := by
  induction d with
  | nil => rfl
  | cons p t ih =>
    simp only [List.map_cons, h p (by simp)]
    rw [ih (fun q hq => h q (by simp [hq]))]

theorem dset_eq_map_keyed {α : Type} :
    ∀ (d : Dict α) (k : String) (g : α → α) (v : α),
      (dkeys d).Nodup → dget d k = some v →
      dset d k (g v) = d.map (fun p => (p.1, if p.1 = k then g p.2 else p.2))
  | [], k, g, v, _, hget => by simp [dget] at hget
  | (k₀, v₀) :: t, k, g, v, hnd, hget => by
    have hnd' : (k₀ :: dkeys t).Nodup := hnd
    by_cases h : k₀ = k
    · subst h
      rw [dget_cons, if_pos rfl] at hget
      cases hget
      have hnk : ∀ p ∈ t, ¬ p.1 = k₀ := by
        intro p hp hpk
        have hmem : p.1 ∈ dkeys t := List.mem_map_of_mem Prod.fst hp
        rw [hpk] at hmem
        exact (List.nodup_cons.mp hnd').1 hmem
      have ht : t.map (fun p => (p.1, if p.1 = k₀ then g p.2 else p.2)) = t :=
        map_keyed_id (fun a b => if a = k₀ then g b else b) t
          (fun p hp => by simp [hnk p hp])
      rw [dset_cons, if_pos rfl, List.map_cons, ht]
      simp
    · have hkk : ¬ k = k₀ := fun hh => h hh.symm
      rw [dget_cons, if_neg h] at hget
      rw [dset_cons, if_neg h, List.map_cons,
        dset_eq_map_keyed t k g v (List.nodup_cons.mp hnd').2 hget]
      simp [h]

theorem dget_entryMap_members
    (f : String → String → VulkanStructMember → VulkanStructMember)
    (n : String) (st : VulkanStruct) (mn : String) :
    dget (entryMap f n st).members mn = (dget st.members mn).map (f n mn) := by
  unfold entryMap
  exact dget_map_keyed (f n) st.members mn

theorem dmem_entryMap_members
    (f : String → String → VulkanStructMember → VulkanStructMember)
    (n : String) (st : VulkanStruct) (mn : String) :
    dmem (entryMap f n st).members mn = dmem st.members mn := by
  simp only [dmem, dget_entryMap_members]
  cases dget st.members mn <;> rfl

theorem dget_memberMap
    (f : String → String → VulkanStructMember → VulkanStructMember)
    (s : Dict VulkanStruct) (k : String) :
    dget (memberMap f s) k = (dget s k).map (entryMap f k) :=
  dget_map_keyed (entryMap f) s k

theorem dkeys_memberMap
    (f : String → String → VulkanStructMember → VulkanStructMember)
    (s : Dict VulkanStruct) :
    dkeys (memberMap f s) = dkeys s :=
  dkeys_map_keyed (entryMap f) s

theorem memberPresent_memberMap
    (f : String → String → VulkanStructMember → VulkanStructMember)
    (s : Dict VulkanStruct) (sn mn : String) :
    memberPresent (memberMap f s) sn mn ↔ memberPresent s sn mn := by
  unfold memberPresent
  rw [dget_memberMap]
  cases hs : dget s sn with
  | none => simp
  | some st =>
    constructor
    · rintro ⟨st', hst', hm⟩
      simp only [Option.map] at hst'
      cases hst'
      exact ⟨st, rfl, by rwa [dmem_entryMap_members] at hm⟩
    · rintro ⟨st', hst', hm⟩
      cases hst'
      exact ⟨entryMap f sn st, rfl, by rwa [dmem_entryMap_members]⟩

theorem regNodup_memberMap
    (f : String → String → VulkanStructMember → VulkanStructMember)
    (s : Dict VulkanStruct) (h : regNodup s) : regNodup (memberMap f s) := by
  obtain ⟨h1, h2⟩ := h
  refine ⟨by rwa [dkeys_memberMap], ?_⟩
  intro p hp
  obtain ⟨q, hq, hpq⟩ := List.mem_map.mp hp
  cases hpq
  have : dkeys (entryMap f q.1 q.2).members = dkeys q.2.members := by
    unfold entryMap
    exact dkeys_map_keyed (f q.1) q.2.members
  rw [this]
  exact h2 q hq

theorem entryMap_entryMap
    (f g : String → String → VulkanStructMember → VulkanStructMember)
    (n : String) (st : VulkanStruct) :
    entryMap f n (entryMap g n st)
      = entryMap (fun n' mn m => f n' mn (g n' mn m)) n st := by
  unfold entryMap
  simp [List.map_map, Function.comp]

theorem entryMap_id_apply (n : String) (st : VulkanStruct) :
    entryMap (fun _ _ m => m) n st = st := by
  unfold entryMap
  rw [show (fun q : String × VulkanStructMember => (q.1, q.2)) = id from rfl,
    List.map_id]

theorem memberMap_memberMap
    (f g : String → String → VulkanStructMember → VulkanStructMember)
    (s : Dict VulkanStruct) :
    memberMap f (memberMap g s)
      = memberMap (fun n mn m => f n mn (g n mn m)) s := by
  unfold memberMap
  rw [List.map_map]
  apply List.map_congr_left
  intro p _
  simp only [Function.comp]
  rw [entryMap_entryMap]

theorem memberMap_congr
    (f g : String → String → VulkanStructMember → VulkanStructMember)
    (s : Dict VulkanStruct) (h : ∀ n mn m, f n mn m = g n mn m) :
    memberMap f s = memberMap g s := by
  have hfg : f = g := funext fun n => funext fun mn => funext fun m => h n mn m
  rw [hfg]

theorem memberMap_id (s : Dict VulkanStruct) :
    memberMap (fun _ _ m => m) s = s := by
  unfold memberMap
  exact map_keyed_id (entryMap (fun _ _ m => m)) s
    (fun p _ => entryMap_id_apply p.1 p.2)

theorem entryMap_eq_self
    (f : String → String → VulkanStructMember → VulkanStructMember)
    (n : String) (st : VulkanStruct) (h : ∀ mn m, f n mn m = m) :
    entryMap f n st = st := by
  unfold entryMap
  have hmm : st.members.map (fun q => (q.1, f n q.1 q.2)) = st.members :=
    map_keyed_id (f n) st.members (fun p _ => h p.1 p.2)
  rw [hmm]

theorem setMemberLimittype_spec (s : Dict VulkanStruct) (sn mn lt : String)
    (hnd : regNodup s) (hp : memberPresent s sn mn) :
    setMemberLimittype s sn mn lt = Except.ok (memberMap (updFn sn mn lt) s) := by
  obtain ⟨st, hst, hm⟩ := hp
  obtain ⟨m, hmm⟩ : ∃ m, dget st.members mn = some m := by
    unfold dmem at hm
    cases hq : dget st.members mn with
    | none => rw [hq] at hm; simp at hm
    | some m => exact ⟨m, rfl⟩
  have heq : setMemberLimittype s sn mn lt
      = Except.ok (dset s sn
          { st with members := dset st.members mn { m with limittype := some lt } }) := by
    unfold setMemberLimittype
    simp only [hst, hmm]
  rw [heq]
  congr 1
  have hmemnd : (dkeys st.members).Nodup := hnd.2 (sn, st) (dget_mem s sn st hst)
  have hin : dset st.members mn { m with limittype := some lt }
      = st.members.map
          (fun q => (q.1, if q.1 = mn then { q.2 with limittype := some lt } else q.2)) :=
    dset_eq_map_keyed st.members mn
      (fun m' => { m' with limittype := some lt }) m hmemnd hmm
  have hentry : ({ st with
        members := dset st.members mn { m with limittype := some lt } } : VulkanStruct)
      = entryMap (updFn sn mn lt) sn st := by
    rw [hin]
    unfold entryMap
    congr 1
    apply List.map_congr_left
    intro q _
    unfold updFn
    by_cases hq : q.1 = mn <;> simp [hq]
  rw [hentry, dset_eq_map_keyed s sn (entryMap (updFn sn mn lt) sn) st hnd.1 hst]
  unfold memberMap
  apply List.map_congr_left
  intro p _
  by_cases hps : p.1 = sn
  · rw [if_pos hps, hps]
  · rw [if_neg hps,
      entryMap_eq_self (updFn sn mn lt) p.1 p.2
        (fun mn' m' => by unfold updFn; simp [hps])]

theorem setMemberLimittype_ok_present (s s₁ : Dict VulkanStruct)
    (sn mn lt : String) (h : setMemberLimittype s sn mn lt = Except.ok s₁) :
    memberPresent s sn mn := by
  unfold setMemberLimittype at h
  cases hst : dget s sn with
  | none => simp only [hst] at h; exact absurd h (by simp)
  | some st =>
    simp only [hst] at h
    cases hmm : dget st.members mn with
    | none => simp only [hmm] at h; exact absurd h (by simp)
    | some m =>
      exact ⟨st, hst, by unfold dmem; rw [hmm]; rfl⟩

theorem tableMemberFn_nil_id (s : Dict VulkanStruct) :
    memberMap (tableMemberFn []) s = s := by
  rw [memberMap_congr (tableMemberFn []) (fun _ _ m => m) s (fun n mn m => rfl),
    memberMap_id]

theorem applyLimittypeTable_ok :
    ∀ (tbl : List (String × String × String)) (s : Dict VulkanStruct),
      regNodup s → (∀ e ∈ tbl, memberPresent s e.1 e.2.1) →
      applyLimittypeTable tbl s = Except.ok (memberMap (tableMemberFn tbl) s)
  | [], s, _, _ => by rw [tableMemberFn_nil_id]; rfl
  | (sn, mn, lt) :: rest, s, hnd, hpres => by
    have h1 : setMemberLimittype s sn mn lt
        = Except.ok (memberMap (updFn sn mn lt) s) :=
      setMemberLimittype_spec s sn mn lt hnd (hpres (sn, mn, lt) (by simp))
    have h2 : applyLimittypeTable rest (memberMap (updFn sn mn lt) s)
        = Except.ok (memberMap (tableMemberFn rest) (memberMap (updFn sn mn lt) s)) :=
      applyLimittypeTable_ok rest (memberMap (updFn sn mn lt) s)
        (regNodup_memberMap _ s hnd)
        (fun e he => (memberPresent_memberMap _ s e.1 e.2.1).mpr
          (hpres e (by simp [he])))
    show (do applyLimittypeTable rest (← setMemberLimittype s sn mn lt))
        = Except.ok (memberMap (tableMemberFn ((sn, mn, lt) :: rest)) s)
    rw [h1]
    simp only [Bind.bind, Except.bind]
    rw [h2, memberMap_memberMap]
    exact congrArg Except.ok
      (memberMap_congr _ (tableMemberFn ((sn, mn, lt) :: rest)) s
        (fun n mn' m => rfl))

theorem applyLimittypeTable_present :
    ∀ (tbl : List (String × String × String)) (s u : Dict VulkanStruct),
      regNodup s → applyLimittypeTable tbl s = Except.ok u →
      ∀ e ∈ tbl, memberPresent s e.1 e.2.1
  | [], _, _, _, _, e, he => absurd he (by simp)
  | (sn, mn, lt) :: rest, s, u, hnd, h, e, he => by
    have hstep : applyLimittypeTable ((sn, mn, lt) :: rest) s
        = (do applyLimittypeTable rest (← setMemberLimittype s sn mn lt)) := rfl
    rw [hstep] at h
    cases hsm : setMemberLimittype s sn mn lt with
    | error er =>
      rw [hsm] at h
      exact absurd h (by simp [Bind.bind, Except.bind])
    | ok s₁ =>
      rw [hsm] at h
      simp only [Bind.bind, Except.bind] at h
      have hhead : memberPresent s sn mn :=
        setMemberLimittype_ok_present s s₁ sn mn lt hsm
      rcases List.mem_cons.mp he with he1 | he2
      · subst he1; exact hhead
      · have hs1 : s₁ = memberMap (updFn sn mn lt) s := by
          have := setMemberLimittype_spec s sn mn lt hnd hhead
          rw [hsm] at this
          exact (Except.ok.injEq _ _).mp this
        have hrest := applyLimittypeTable_present rest s₁ u
          (by rw [hs1]; exact regNodup_memberMap _ s hnd) h e he2
        rw [hs1] at hrest
        exact (memberPresent_memberMap _ s e.1 e.2.1).mp hrest

theorem tableMemberFn_lastMatch :
    ∀ (tbl : List (String × String × String)) (n mn : String)
      (m : VulkanStructMember),
      tableMemberFn tbl n mn m = applyLast (lastMatch tbl n mn) m
  | [], _, _, _ => rfl
  | (sn, mn0, lt0) :: rest, n, mn, m => by
    have h1 : tableMemberFn ((sn, mn0, lt0) :: rest) n mn m
        = tableMemberFn rest n mn (updFn sn mn0 lt0 n mn m) := rfl
    rw [h1, tableMemberFn_lastMatch rest n mn (updFn sn mn0 lt0 n mn m)]
    cases hr : lastMatch rest n mn with
    | some r =>
      have h2 : lastMatch ((sn, mn0, lt0) :: rest) n mn = some r := by
        unfold lastMatch
        rw [hr]
      rw [h2]
      unfold applyLast updFn
      by_cases hc : n = sn ∧ mn = mn0 <;> simp [hc]
    | none =>
      have h2 : lastMatch ((sn, mn0, lt0) :: rest) n mn
          = (if n = sn ∧ mn = mn0 then some lt0 else none) := by
        unfold lastMatch
        rw [hr]
      rw [h2]
      by_cases hc : n = sn ∧ mn = mn0
      · rw [if_pos hc]
        unfold applyLast updFn
        simp [hc]
      · rw [if_neg hc]
        unfold applyLast updFn
        simp [hc]

theorem lastMatch_mem :
    ∀ (tbl : List (String × String × String)) (n mn lt : String),
      lastMatch tbl n mn = some lt → ∃ sn mn', (sn, mn', lt) ∈ tbl
  | [], _, _, _, h => by simp [lastMatch] at h
  | (sn, mn0, lt0) :: rest, n, mn, lt, h => by
    unfold lastMatch at h
    cases hr : lastMatch rest n mn with
    | some r =>
      rw [hr] at h
      cases h
      obtain ⟨a, b, hab⟩ := lastMatch_mem rest n mn lt hr
      exact ⟨a, b, by simp [hab]⟩
    | none =>
      rw [hr] at h
      by_cases hc : n = sn ∧ mn = mn0
      · rw [if_pos hc] at h
        cases h
        exact ⟨sn, mn0, by simp⟩
      · rw [if_neg hc] at h
        exact absurd h (by simp)

theorem p2mFn_noauto (m : VulkanStructMember) :
    (p2mFn m).limittype ≠ some "bitmask" ∨ p2mFn m = m := by
  unfold p2mFn
  by_cases h : m.limittype = some "bitmask" ∧ m.type = "VkBool32"
  · rw [if_pos h]
    left
    simp
  · rw [if_neg h]
    right
    rfl

theorem p2mFn_idem (m : VulkanStructMember) : p2mFn (p2mFn m) = p2mFn m := by
  by_cases h : m.limittype = some "bitmask" ∧ m.type = "VkBool32"
  · have h1 : p2mFn m = { m with limittype := some "noauto" } := by
      unfold p2mFn; rw [if_pos h]
    rw [h1]
    unfold p2mFn
    rw [if_neg (by simp)]
  · have h1 : p2mFn m = m := by unfold p2mFn; rw [if_neg h]
    rw [h1, h1]

theorem workaroundTable_no_bitmask :
    ∀ e ∈ workaroundTable, e.2.2 ≠ "bitmask" := by decide

theorem wFn_idem (n mn : String) (m : VulkanStructMember) :
    p2mFn (tableMemberFn workaroundTable n mn
      (p2mFn (tableMemberFn workaroundTable n mn m)))
      = p2mFn (tableMemberFn workaroundTable n mn m) := by
  rw [tableMemberFn_lastMatch, tableMemberFn_lastMatch]
  cases hr : lastMatch workaroundTable n mn with
  | some lt =>
    obtain ⟨sn, mn', hmem⟩ := lastMatch_mem workaroundTable n mn lt hr
    have hlt : lt ≠ "bitmask" := workaroundTable_no_bitmask (sn, mn', lt) hmem
    have hp : ∀ m' : VulkanStructMember,
        p2mFn { m' with limittype := some lt } = { m' with limittype := some lt } := by
      intro m'
      unfold p2mFn
      rw [if_neg (by simp [hlt])]
    have hap : ∀ m' : VulkanStructMember,
        applyLast (some lt) m' = { m' with limittype := some lt } := fun _ => rfl
    rw [hap m, hp m, hap ({ m with limittype := some lt } : VulkanStructMember)]
    exact hp m
  | none =>
    exact p2mFn_idem m

theorem boolBitmaskFix_eq (s : Dict VulkanStruct) :
    boolBitmaskFix s = memberMap (fun _ _ m => p2mFn m) s := rfl

theorem applyWorkarounds_spec (t : Dict VulkanStruct) (hndt : regNodup t)
    (hprest : ∀ e ∈ workaroundTable, memberPresent t e.1 e.2.1) :
    applyWorkarounds t
      = Except.ok (memberMap
          (fun n mn m => p2mFn (tableMemberFn workaroundTable n mn m)) t) := by
  show (do Except.ok (boolBitmaskFix (← applyLimittypeTable workaroundTable t))) = _
  rw [applyLimittypeTable_ok workaroundTable t hndt hprest]
  simp only [Bind.bind, Except.bind]
  rw [boolBitmaskFix_eq, memberMap_memberMap]

/-- **C9**: `VulkanRegistry.applyWorkarounds` — the hard-coded limittype
override table followed by the `VkBool32` bitmask-to-noauto rewrite — is
idempotent: applied to its own successful output (for any duplicate-free
struct map, the invariant Python dicts guarantee) it succeeds and returns
that output unchanged. -/
theorem c9_workaround_idempotent (s s' : Dict VulkanStruct)
    (hnd : regNodup s) (h : applyWorkarounds s = Except.ok s') :
    applyWorkarounds s' = Except.ok s' := by
  cases ht : applyLimittypeTable workaroundTable s with
  | error er =>
    have hfail : applyWorkarounds s = Except.error er := by
      show (do Except.ok (boolBitmaskFix (← applyLimittypeTable workaroundTable s)))
        = Except.error er
      rw [ht]
      rfl
    rw [hfail] at h
    exact absurd h (by simp)
  | ok u =>
    have hpres := applyLimittypeTable_present workaroundTable s u hnd ht
    have hs' : s' = memberMap
        (fun n mn m => p2mFn (tableMemberFn workaroundTable n mn m)) s := by
      have hws := applyWorkarounds_spec s hnd hpres
      rw [hws] at h
      exact ((Except.ok.injEq _ _).mp h).symm
    have hnd' : regNodup s' := by
      rw [hs']
      exact regNodup_memberMap _ s hnd
    have hpres' : ∀ e ∈ workaroundTable, memberPresent s' e.1 e.2.1 := by
      intro e he
      rw [hs']
      exact (memberPresent_memberMap _ s e.1 e.2.1).mpr (hpres e he)
    rw [applyWorkarounds_spec s' hnd' hpres']
    congr 1
    conv_lhs => rw [hs']
    rw [memberMap_memberMap]
    show memberMap (fun n mn m =>
        p2mFn (tableMemberFn workaroundTable n mn
          (p2mFn (tableMemberFn workaroundTable n mn m)))) s = s'
    rw [memberMap_congr _
        (fun n mn m => p2mFn (tableMemberFn workaroundTable n mn m)) s
        (fun n mn m => wFn_idem n mn m)]
    exact hs'.symm

theorem c9_workaround_idempotent_witness :
    regNodup c9Structs ∧ applyWorkarounds c9Structs = Except.ok c9Fixed ∧
      applyWorkarounds c9Fixed = Except.ok c9Fixed :=
  ⟨by unfold regNodup; decide, by rfl,
    c9_workaround_idempotent c9Structs c9Fixed (by unfold regNodup; decide)
      (by rfl)⟩

/-! ## Claim C4: alias closure -/

theorem dget_of_mem_nodup {α : Type} :
    ∀ (d : Dict α) (k : String) (v : α),
      (dkeys d).Nodup → (k, v) ∈ d → dget d k = some v
  | [], _, _, _, h => absurd h (by simp)
  | (k₀, v₀) :: t, k, v, hnd, hmem => by
    have hnd' : (k₀ :: dkeys t).Nodup := hnd
    rcases List.mem_cons.mp hmem with h | h
    · rw [Prod.mk.injEq] at h
      rw [← h.1, ← h.2]
      simp
    · by_cases hk : k₀ = k
      · have hkm : k ∈ dkeys t := List.mem_map_of_mem Prod.fst h
        rw [← hk] at hkm
        exact absurd hkm (List.nodup_cons.mp hnd').1
      · rw [dget_cons, if_neg hk]
        exact dget_of_mem_nodup t k v (List.nodup_cons.mp hnd').2 h

theorem groupSetAliases_eq (structs : Dict VulkanStruct) (g na : List String) :
    groupSetAliases structs g na
      = structs.map (fun p =>
          (p.1, if p.1 ∈ g then { p.2 with aliases := na } else p.2)) := by
  unfold groupSetAliases
  apply List.map_congr_left
  intro p _
  by_cases h : p.1 ∈ g <;> simp [h]

theorem dget_groupSetAliases (structs : Dict VulkanStruct) (g na : List String)
    (k : String) :
    dget (groupSetAliases structs g na) k
      = (dget structs k).map
          (fun s => if k ∈ g then { s with aliases := na } else s) := by
  rw [groupSetAliases_eq]
  exact dget_map_keyed
    (fun n (s : VulkanStruct) => if n ∈ g then { s with aliases := na } else s)
    structs k

theorem dkeys_groupSetAliases (structs : Dict VulkanStruct)
    (g na : List String) :
    dkeys (groupSetAliases structs g na) = dkeys structs := by
  rw [groupSetAliases_eq]
  exact dkeys_map_keyed
    (fun n (s : VulkanStruct) => if n ∈ g then { s with aliases := na } else s)
    structs

theorem aliasInv_after_alias_step
    (structs : Dict VulkanStruct) (name a : String)
    (base aliasOld : VulkanStruct) (X : Option String)
    (hnd : (dkeys structs).Nodup) (hinv : aliasInv structs)
    (hfr : aliasOld.aliases = [name]) (hne : name ≠ a)
    (hbase : dget structs a = some base)
    (halias : dget structs name = some aliasOld) :
    aliasInv (dset
      (groupSetAliases structs base.aliases (base.aliases ++ [name])) name
      { aliasOld with
          extends_ := base.extends_
          members := base.members
          aliases := base.aliases ++ [name]
          sType := X }) := by
  have hGA := hinv (a, base) (dget_mem structs a base hbase)
  have F0 : name ∉ base.aliases := by
    intro hm
    obtain ⟨sn, hsn, hals, _⟩ := hGA.2 name hm
    rw [halias] at hsn
    have hsneq := Option.some.inj hsn
    rw [← hsneq, hfr] at hals
    have ha1 : a ∈ ([name] : List String) := by rw [hals]; exact hGA.1
    have ha2 : a = name := by simpa using ha1
    exact hne ha2.symm
  have hS1get : ∀ k, dget
      (groupSetAliases structs base.aliases (base.aliases ++ [name])) k
      = (dget structs k).map
          (fun s => if k ∈ base.aliases
            then { s with aliases := base.aliases ++ [name] } else s) :=
    fun k => dget_groupSetAliases structs base.aliases (base.aliases ++ [name]) k
  have hS2get : ∀ k, dget (dset
      (groupSetAliases structs base.aliases (base.aliases ++ [name])) name
      { aliasOld with
          extends_ := base.extends_
          members := base.members
          aliases := base.aliases ++ [name]
          sType := X }) k
      = if name = k then some { aliasOld with
          extends_ := base.extends_
          members := base.members
          aliases := base.aliases ++ [name]
          sType := X } else dget
            (groupSetAliases structs base.aliases (base.aliases ++ [name])) k :=
    fun k => dget_dset _ name k _
  have hS2nodup : (dkeys (dset
      (groupSetAliases structs base.aliases (base.aliases ++ [name])) name
      { aliasOld with
          extends_ := base.extends_
          members := base.members
          aliases := base.aliases ++ [name]
          sType := X })).Nodup := by
    have hmem1 : dmem
        (groupSetAliases structs base.aliases (base.aliases ++ [name]))
        name = true := by
      unfold dmem
      rw [hS1get name, halias]
      rfl
    rw [dkeys_dset_of_mem _ _ _ hmem1, dkeys_groupSetAliases]
    exact hnd
  have hGroup : ∀ n ∈ base.aliases ++ [name], ∃ sn', dget (dset
      (groupSetAliases structs base.aliases (base.aliases ++ [name])) name
      { aliasOld with
          extends_ := base.extends_
          members := base.members
          aliases := base.aliases ++ [name]
          sType := X }) n = some sn' ∧
      sn'.aliases = base.aliases ++ [name] ∧ sn'.members = base.members := by
    intro n hn
    rcases List.mem_append.mp hn with hg | hns
    · have hnn : n ≠ name := fun h => F0 (h ▸ hg)
      obtain ⟨sn, hsn, hals, hmem⟩ := hGA.2 n hg
      refine ⟨{ sn with aliases := base.aliases ++ [name] }, ?_, rfl, hmem⟩
      rw [hS2get n, if_neg (fun h => hnn h.symm), hS1get n, hsn]
      simp [hg]
    · have hn' : n = name := by simpa using hns
      refine ⟨{ aliasOld with
          extends_ := base.extends_
          members := base.members
          aliases := base.aliases ++ [name]
          sType := X }, ?_, rfl, rfl⟩
      rw [hn', hS2get name, if_pos rfl]
  intro p hp
  have hget := dget_of_mem_nodup _ p.1 p.2 hS2nodup hp
  by_cases hk : p.1 = name
  · have hR : p.2 = { aliasOld with
        extends_ := base.extends_
        members := base.members
        aliases := base.aliases ++ [name]
        sType := X } := by
      rw [hS2get p.1, if_pos hk.symm] at hget
      exact (Option.some.inj hget).symm
    constructor
    · rw [hR, hk]
      exact List.mem_append.mpr (Or.inr (by simp))
    · intro n hn
      rw [hR] at hn
      obtain ⟨sn', h1, h2, h3⟩ := hGroup n hn
      exact ⟨sn', h1, by rw [hR]; exact h2, by rw [hR]; exact h3⟩
  · have hgS1 : dget
        (groupSetAliases structs base.aliases (base.aliases ++ [name])) p.1
        = some p.2 := by
      rw [hS2get p.1, if_neg (fun h => hk h.symm)] at hget
      exact hget
    rw [hS1get p.1] at hgS1
    cases hs0 : dget structs p.1 with
    | none => rw [hs0] at hgS1; simp at hgS1
    | some s0 =>
      rw [hs0] at hgS1
      simp only [Option.map] at hgS1
      have hinv0 := hinv (p.1, s0) (dget_mem structs p.1 s0 hs0)
      by_cases hg : p.1 ∈ base.aliases
      · have hp2 : p.2 = { s0 with aliases := base.aliases ++ [name] } := by
          rw [if_pos hg] at hgS1
          exact (Option.some.inj hgS1).symm
        obtain ⟨sn, hsn, hals, hmem⟩ := hGA.2 p.1 hg
        have hsn0 : s0 = sn := by
          rw [hs0] at hsn
          exact Option.some.inj hsn
        subst hsn0
        constructor
        · rw [hp2]
          exact List.mem_append.mpr (Or.inl hg)
        · intro n hn
          rw [hp2] at hn
          obtain ⟨sn', h1, h2, h3⟩ := hGroup n hn
          refine ⟨sn', h1, by rw [hp2]; exact h2, ?_⟩
          rw [hp2]
          show sn'.members = s0.members
          rw [h3, ← hmem]
      · have hp2 : p.2 = s0 := by
          rw [if_neg hg] at hgS1
          exact (Option.some.inj hgS1).symm
        constructor
        · rw [hp2]
          exact hinv0.1
        · intro n hn
          rw [hp2] at hn
          obtain ⟨sn, hsn, hals, hmem⟩ := hinv0.2 n hn
          have hnname : n ≠ name := by
            intro h
            subst h
            rw [halias] at hsn
            have h5 := Option.some.inj hsn
            rw [← h5, hfr] at hals
            have h6 : p.1 ∈ ([n] : List String) := by
              rw [hals]
              exact hinv0.1
            exact hk (by simpa using h6)
          have hnG : n ∉ base.aliases := by
            intro hgmem
            obtain ⟨sn2, hsn2, hals2, _⟩ := hGA.2 n hgmem
            rw [hsn] at hsn2
            have h7 := Option.some.inj hsn2
            rw [← h7] at hals2
            have h8 : p.1 ∈ base.aliases := by
              rw [← hals2, hals]
              exact hinv0.1
            exact hg h8
          refine ⟨sn, ?_, by rw [hp2]; exact hals, by rw [hp2]; exact hmem⟩
          rw [hS2get n, if_neg (fun h => hnname h.symm), hS1get n, hsn]
          simp [hnG]

/-- **C4** (amended): a successful alias step links the alias struct to its
base's members table and shared aliases list, maintaining the group
invariant that every struct's aliases all carry the same aliases list and
the same members (hence member set); but the alias's resolved `sType` is not
the base's value: when the base has an sType it is rewritten to the
`sTypeAliases` image found through the alias's defining version or
extensions. -/
theorem c4_alias_members_shared (versions : Dict VulkanVersion)
    (extensions : Dict VulkanExtension) (structs : Dict VulkanStruct)
    (name a : String) (structs' : Dict VulkanStruct)
    (hnd : (dkeys structs).Nodup) (hinv : aliasInv structs)
    (hfresh : ∀ s, dget structs name = some s → s.aliases = [name])
    (hne : name ≠ a)
    (hstep : parseAliasStep versions extensions structs name a
      = Except.ok structs') :
    aliasInv structs' ∧
    ∃ base aliasOld alias',
      dget structs a = some base ∧ dget structs name = some aliasOld ∧
      dget structs' name = some alias' ∧
      alias'.members = base.members ∧
      alias'.aliases = base.aliases ++ [name] ∧
      (base.sType = none → alias'.sType = aliasOld.sType) ∧
      (∀ s0, base.sType = some s0 →
        ∃ t, findSTypeAlias versions extensions aliasOld s0
            = Except.ok (some t) ∧ alias'.sType = some t) := by
  unfold parseAliasStep at hstep
  cases hbase : dget structs a with
  | none =>
    simp only [hbase] at hstep
    exact Except.noConfusion hstep
  | some base =>
    simp only [hbase] at hstep
    cases halias : dget structs name with
    | none =>
      simp only [halias] at hstep
      exact Except.noConfusion hstep
    | some aliasOld =>
      simp only [halias] at hstep
      have hfr := hfresh aliasOld halias
      cases hs0 : base.sType with
      | none =>
        simp only [hs0, Bind.bind, Except.bind, pure, Except.pure] at hstep
        have hs' := (Except.ok.injEq _ _).mp hstep
        refine ⟨?_, base, aliasOld,
          { aliasOld with
              extends_ := base.extends_
              members := base.members
              aliases := base.aliases ++ [name]
              sType := aliasOld.sType },
          rfl, rfl, ?_, rfl, rfl, fun _ => rfl, ?_⟩
        · rw [← hs']
          exact aliasInv_after_alias_step structs name a base aliasOld
            aliasOld.sType hnd hinv hfr hne hbase halias
        · rw [← hs', dget_dset]
          simp
        · intro s0 h
          rw [hs0] at h
          exact Option.noConfusion h
      | some s0 =>
        cases hfind : findSTypeAlias versions extensions aliasOld s0 with
        | error e =>
          simp only [hs0, hfind, Bind.bind, Except.bind] at hstep
          exact Except.noConfusion hstep
        | ok o =>
          cases o with
          | none =>
            simp only [hs0, hfind, Bind.bind, Except.bind] at hstep
            exact Except.noConfusion hstep
          | some t =>
            simp only [hs0, hfind, Bind.bind, Except.bind, pure,
              Except.pure] at hstep
            have hs' := (Except.ok.injEq _ _).mp hstep
            refine ⟨?_, base, aliasOld,
              { aliasOld with
                  extends_ := base.extends_
                  members := base.members
                  aliases := base.aliases ++ [name]
                  sType := some t },
              rfl, rfl, ?_, rfl, rfl, ?_, ?_⟩
            · rw [← hs']
              exact aliasInv_after_alias_step structs name a base aliasOld
                (some t) hnd hinv hfr hne hbase halias
            · rw [← hs', dget_dset]
              simp
            · intro h
              rw [hs0] at h
              exact Option.noConfusion h
            · intro s1 h
              rw [hs0] at h
              have : s0 = s1 := Option.some.inj h
              subst this
              exact ⟨t, hfind, rfl⟩

theorem c4_alias_members_shared_witness :
    aliasInv c4wOut ∧
    ∃ base aliasOld alias',
      dget c4wStructs "VkX" = some base ∧
      dget c4wStructs "VkXKHR" = some aliasOld ∧
      dget c4wOut "VkXKHR" = some alias' ∧
      alias'.members = base.members ∧
      alias'.aliases = base.aliases ++ ["VkXKHR"] ∧
      (base.sType = none → alias'.sType = aliasOld.sType) ∧
      (∀ s0, base.sType = some s0 →
        ∃ t, findSTypeAlias [] c4wExtensions aliasOld s0
            = Except.ok (some t) ∧ alias'.sType = some t) :=
  c4_alias_members_shared [] c4wExtensions c4wStructs "VkXKHR" "VkX" c4wOut
    (by decide)
    (by
      unfold aliasInv
      intro p hp
      rcases List.mem_cons.mp hp with h | hp2
      · subst h
        refine ⟨by decide, ?_⟩
        intro n hn
        have hn' : n = "VkX" := by simpa using hn
        subst hn'
        exact ⟨_, rfl, rfl, rfl⟩
      · rcases List.mem_cons.mp hp2 with h | h
        · subst h
          refine ⟨by decide, ?_⟩
          intro n hn
          have hn' : n = "VkXKHR" := by simpa using hn
          subst hn'
          exact ⟨_, rfl, rfl, rfl⟩
        · exact absurd h (by simp))
    (by
      intro s hs
      have h1 := Option.some.inj hs
      rw [← h1])
    (by decide) (by rfl)

/-- **C4** (counterexample): loading a registry in which `VkXKHR` aliases
`VkX` and the defining extension carries the structure-type alias enum
succeeds, and the two structs of the alias group share their member set but
carry different resolved `sType` values. -/
theorem c4_alias_stype_not_shared :
    ∃ reg : VulkanRegistry, loadRegistry c4Xml = Except.ok reg ∧
      ∃ b al, dget reg.structs "VkX" = some b ∧
        dget reg.structs "VkXKHR" = some al ∧
        b.aliases = ["VkX", "VkXKHR"] ∧ al.aliases = ["VkX", "VkXKHR"] ∧
        al.members = b.members ∧
        b.sType = some "VK_STRUCTURE_TYPE_X" ∧
        al.sType = some "VK_STRUCTURE_TYPE_X_KHR" ∧
        al.sType ≠ b.sType :=
  ⟨c4Reg, rfl, _, _, rfl, rfl, rfl, rfl, rfl, rfl, rfl, by decide⟩

end Genvp
